import Mathlib

/-!
Verification of the Gift-Scheduler data-integrity control plane.

This file gives a shallow embedding, in Lean 4, of the server-side code of
the Gift-Scheduler application that the specification covers:

* `server/src/audit.js` — the ledger writer (`logAudit`) and its PII
  redaction pass (`sanitizeDetails`);
* `server/src/routes/orders.js` — purchase (order) creation, which enforces
  the approval-before-purchase gate and the emergency-stop switch, and the
  order status-update route;
* `server/src/routes/settings.js` — the emergency-stop (safety switch)
  route with its cancellation cascade;
* `server/src/routes/backup.js` — JSON export and the atomic restore engine
  with its schema allowlist, column-type validation, protected
  (append-only) tables and transaction semantics.

JavaScript runtime values are modelled by the inductive type `JVal`
(null / boolean / number / string / object / array).  SQLite numbers
(INTEGER and REAL alike) are modelled as `Int`: no claim below performs
arithmetic on them, they are only stored and compared.  Database rows,
in the untyped model used for the backup routes, are association lists
of column name to `JVal`.  Nondeterministic inputs of the code (uuids,
random order references, timestamps, bcrypt comparisons) are passed to
the embedded operations as explicit parameters.  Transactions follow
better-sqlite3 semantics: a thrown exception inside `db.transaction`
rolls the data changes back (modelled by returning the pre-transaction
state), while pragma changes are connection state and are re-applied by
the `finally` block on both paths.
-/

namespace GiftScheduler

/-- JavaScript/JSON runtime values as manipulated by the server code. -/
inductive JVal where
  | null : JVal
  | bool (b : Bool) : JVal
  | num (n : Int) : JVal
  | str (s : String) : JVal
  | obj (fields : List (String × JVal)) : JVal
  | arr (elems : List JVal) : JVal
deriving Repr, Inhabited

mutual

/-- Decidable equality for `JVal` (the nested inductive prevents deriving). -/
def decJVal (a b : JVal) : Decidable (a = b) := by
  cases a <;> cases b <;> try { apply isFalse ; intro h ; injection h }
  case null.null => exact isTrue rfl
  case bool.bool x y =>
    exact match decEq x y with
    | isTrue h => isTrue (by rw [h])
    | isFalse hn => isFalse (by intro h ; injection h ; contradiction)
  case num.num x y =>
    exact match decEq x y with
    | isTrue h => isTrue (by rw [h])
    | isFalse hn => isFalse (by intro h ; injection h ; contradiction)
  case str.str x y =>
    exact match decEq x y with
    | isTrue h => isTrue (by rw [h])
    | isFalse hn => isFalse (by intro h ; injection h ; contradiction)
  case obj.obj x y =>
    exact match decJFields x y with
    | isTrue h => isTrue (by rw [h])
    | isFalse hn => isFalse (by intro h ; injection h ; contradiction)
  case arr.arr x y =>
    exact match decJList x y with
    | isTrue h => isTrue (by rw [h])
    | isFalse hn => isFalse (by intro h ; injection h ; contradiction)

/-- Decidable equality for object field lists. -/
def decJFields (a b : List (String × JVal)) : Decidable (a = b) :=
  match a, b with
  | [], [] => isTrue rfl
  | _ :: _, [] => isFalse (by intro h ; injection h)
  | [], _ :: _ => isFalse (by intro h ; injection h)
  | (k, v) :: r, (k2, v2) :: r2 =>
    match decEq k k2, decJVal v v2, decJFields r r2 with
    | isTrue h1, isTrue h2, isTrue h3 => isTrue (by rw [h1, h2, h3])
    | isFalse h1, _, _ => isFalse (by intro h ; injection h with hp hr ; injection hp ; contradiction)
    | _, isFalse h2, _ => isFalse (by intro h ; injection h with hp hr ; injection hp ; contradiction)
    | _, _, isFalse h3 => isFalse (by intro h ; injection h ; contradiction)

/-- Decidable equality for array element lists. -/
def decJList (a b : List JVal) : Decidable (a = b) :=
  match a, b with
  | [], [] => isTrue rfl
  | _ :: _, [] => isFalse (by intro h ; injection h)
  | [], _ :: _ => isFalse (by intro h ; injection h)
  | v :: r, v2 :: r2 =>
    match decJVal v v2, decJList r r2 with
    | isTrue h1, isTrue h2 => isTrue (by rw [h1, h2])
    | isFalse h1, _ => isFalse (by intro h ; injection h ; contradiction)
    | _, isFalse h2 => isFalse (by intro h ; injection h ; contradiction)

end

instance : DecidableEq JVal := decJVal

/-- JavaScript truthiness of a value (`!v` is its negation). -/
def jsTruthy : JVal → Bool
  | .null => false
  | .bool b => b
  | .num n => !(n == 0)
  | .str s => !(s == "")
  | .obj _ => true
  | .arr _ => true

/-- Truthiness of a possibly-absent (`undefined`) value. -/
def jsTruthyOpt : Option JVal → Bool
  | none => false
  | some v => jsTruthy v

/-- Property access `v[k]` for a string key; `none` models `undefined`.
Objects are association lists (unique keys, first binding wins); arrays
and strings answer to numeric-string indices. -/
def jsGet : JVal → String → Option JVal
  | .obj fs, k => fs.lookup k
  | .arr es, k =>
      match k.toNat? with
      | some i => es.get? i
      | none => none
  | .str s, k =>
      match k.toNat? with
      | some i => (s.toList.get? i).map (fun c => .str c.toString)
      | none => none
  | _, _ => none

/-- Index access `v[i]` for a numeric index. -/
def jsIndex : JVal → Nat → Option JVal
  | .obj fs, i => fs.lookup (toString i)
  | .arr es, i => es.get? i
  | .str s, i => (s.toList.get? i).map (fun c => .str c.toString)
  | _, _ => none

/-- The value of `v.length` as read by the restore loop (`rows.length`):
arrays and strings expose their length, objects may carry a `length`
property, primitives answer `undefined`. -/
def jsLength : JVal → Option JVal
  | .arr es => some (.num es.length)
  | .str s => some (.num s.length)
  | .obj fs => fs.lookup "length"
  | _ => none

/-- `Object.keys(v)`: field names of an object, index strings of an array
or string, `[]` for other primitives.  (`Object.keys` of `null` or
`undefined` throws; callers model that case separately.) -/
def jsKeys : JVal → List String
  | .obj fs => fs.map Prod.fst
  | .arr es => (List.range es.length).map toString
  | .str s => (List.range s.length).map toString
  | _ => []

/-- The result of the JavaScript `typeof` operator (with `undefined` for an
absent value).  `typeof null` is `"object"`. -/
def typeofJVal : Option JVal → String
  | none => "undefined"
  | some .null => "object"
  | some (.bool _) => "boolean"
  | some (.num _) => "number"
  | some (.str _) => "string"
  | some (.obj _) => "object"
  | some (.arr _) => "object"

/-- `typeof v === 'object'` (true for objects, arrays and `null`). -/
def isObjectLike : JVal → Bool
  | .null => true
  | .obj _ => true
  | .arr _ => true
  | _ => false

/-! ## server/src/audit.js -/

/-- PII fields that should never be logged as values in audit details
(the `PII_FIELDS` constant of `audit.js`). -/
def PII_FIELDS : List String := ["email", "phone", "birthday", "anniversary", "other_date"]

mutual

/-- `sanitizeDetails` of `audit.js`: replace PII field values with
`"[redacted]"`, recursing into a `changes` sub-object.  A non-object
(including `null`, which is falsy) is returned unchanged; `Object.entries`
of an array yields its index-keyed entries (keys `"0"`, `"1"`, …), so an
array comes back as an index-keyed object after the same per-entry loop. -/
def sanitizeDetails : JVal → JVal
  | .null => .null
  | .bool b => .bool b
  | .num n => .num n
  | .str s => .str s
  | .arr es => .obj (sanitizeIndexFields ((List.range es.length).map toString) es)
  | .obj fs => .obj (sanitizeFields fs)

/-- The per-entry loop of `sanitizeDetails` over `Object.entries(details)`. -/
def sanitizeFields : List (String × JVal) → List (String × JVal)
  | [] => []
  | (k, v) :: rest =>
      (if PII_FIELDS.contains k then (k, .str "[redacted]")
       else if k == "changes" && isObjectLike v then (k, sanitizeDetails v)
       else (k, v)) :: sanitizeFields rest

/-- The same per-entry loop, applied to the index-keyed entries of an
array (keys supplied separately so that the recursion stays structural
in the element list). -/
def sanitizeIndexFields : List String → List JVal → List (String × JVal)
  | _, [] => []
  | [], _ :: _ => []
  | k :: ks, v :: es =>
      (if PII_FIELDS.contains k then (k, .str "[redacted]")
       else if k == "changes" && isObjectLike v then (k, sanitizeDetails v)
       else (k, v)) :: sanitizeIndexFields ks es

end

mutual

/-- The redaction property of a details value as persisted: every PII key
of the map carries the literal marker, and the check recurses through
`changes` keys exactly as the claim states. -/
def redactedOK : JVal → Bool
  | .obj fs => redactedOKFields fs
  | _ => true

/-- Field-list form of `redactedOK`. -/
def redactedOKFields : List (String × JVal) → Bool
  | [] => true
  | (k, v) :: rest =>
      (if PII_FIELDS.contains k then v == JVal.str "[redacted]"
       else if k == "changes" then redactedOK v
       else true) && redactedOKFields rest

end

mutual

/-- A rendering of `JSON.stringify`, used where `audit.js` serialises the
sanitized details into the `details` TEXT column.  String escaping is not
reproduced (no claim depends on it); the structure of the output is. -/
def serializeJVal : JVal → String
  | .null => "null"
  | .bool b => if b then "true" else "false"
  | .num n => toString n
  | .str s => "\"" ++ s ++ "\""
  | .obj fs => "\x7b" ++ serializeFields fs ++ "\x7d"
  | .arr es => "[" ++ serializeElems es ++ "]"

/-- Comma-joined serialisation of object fields. -/
def serializeFields : List (String × JVal) → String
  | [] => ""
  | [(k, v)] => "\"" ++ k ++ "\":" ++ serializeJVal v
  | (k, v) :: rest => "\"" ++ k ++ "\":" ++ serializeJVal v ++ "," ++ serializeFields rest

/-- Comma-joined serialisation of array elements. -/
def serializeElems : List JVal → String
  | [] => ""
  | [v] => serializeJVal v
  | v :: rest => serializeJVal v ++ "," ++ serializeElems rest

end

/-! ## Typed data model for the orders and settings routes

One structure per SQLite table touched by `orders.js` and the
emergency-stop route of `settings.js`, with the schema of
`server/src/database.js`.  REAL columns are modelled as `Int` and
INTEGER flags as `Int` (see the file comment); nullable TEXT columns as
`Option String`. -/

/-- A row of `global_settings` (`key TEXT PRIMARY KEY, value TEXT, updated_at TEXT`). -/
structure GlobalSetting where
  key : String
  value : String
  updated_at : String
deriving Repr, DecidableEq

/-- A row of `approvals`. -/
structure ApprovalRow where
  id : String
  event_id : String
  gift_recommendation_id : Option String
  card_message_id : Option String
  approved_by : String
  status : String
  notes : String
  created_at : String
deriving Repr, DecidableEq

/-- A row of `gift_recommendations`. -/
structure GiftRecRow where
  id : String
  event_id : String
  name : String
  description : Option String
  price : Int
  retailer : String
  url : Option String
  image_url : Option String
  in_stock : Int
  estimated_delivery : Option String
  reasoning : Option String
  status : String
  created_at : String
deriving Repr, DecidableEq

/-- A row of `events`. -/
structure EventRow where
  id : String
  contact_id : String
  type : String
  name : String
  date : String
  recurring : Int
  lead_time_days : Int
  status : String
  created_at : String
  updated_at : String
deriving Repr, DecidableEq

/-- A row of `orders`. -/
structure OrderRow where
  id : String
  gift_recommendation_id : String
  event_id : String
  approval_id : Option String
  status : String
  tracking_url : Option String
  order_reference : Option String
  ordered_at : Option String
  estimated_delivery : Option String
  actual_delivery : Option String
  issue_description : Option String
  created_at : String
  updated_at : String
deriving Repr, DecidableEq

/-- A row of `notifications`. -/
structure NotificationRow where
  id : String
  event_id : Option String
  order_id : Option String
  type : String
  message : String
  read : Int
  created_at : String
deriving Repr, DecidableEq

/-- A row of `audit_log`.  In this typed model the `details` TEXT column
holds the (already sanitized) JSON value rather than its serialisation;
`logAudit` serialises with `JSON.stringify`, which is injective on the
values that reach it, so nothing is lost by keeping the structured value. -/
structure AuditEntry where
  id : String
  action : String
  entity_type : String
  entity_id : Option String
  details : JVal
  performed_by : String
  created_at : String
deriving Repr, DecidableEq

/-- The slice of database state read and written by the orders and
settings routes. -/
structure AppState where
  global_settings : List GlobalSetting
  orders : List OrderRow
  approvals : List ApprovalRow
  gift_recommendations : List GiftRecRow
  events : List EventRow
  notifications : List NotificationRow
  audit_log : List AuditEntry
deriving Repr, DecidableEq

/-- `logAudit` of `audit.js` in the typed model: sanitize the details and
append one entry to `audit_log`.  The fresh uuid and the row timestamp
are passed in explicitly. -/
def logAuditT (log : List AuditEntry) (id action entityType : String)
    (entityId : Option String) (details : JVal) (performedBy now : String) :
    List AuditEntry :=
  log ++ [⟨id, action, entityType, entityId, sanitizeDetails details, performedBy, now⟩]

/-- The emergency-stop read performed by order creation:
`SELECT value FROM global_settings WHERE key = 'emergency_stop'`,
then `emergencySetting && emergencySetting.value === 'true'`. -/
def emergencyStopActive (st : AppState) : Bool :=
  match st.global_settings.find? (fun s => s.key == "emergency_stop") with
  | some s => s.value == "true"
  | none => false

/-- JavaScript truthiness of an optional request-body string: `undefined`,
`null` and the empty string are falsy. -/
def jsStrPresent : Option String → Bool
  | none => false
  | some s => !(s == "")

/-- Outcome of the order-creation route. -/
inductive CreateOrderResult where
  | created (o : OrderRow) : CreateOrderResult
  | rejected (code : Nat) (error : String) : CreateOrderResult
deriving Repr, DecidableEq

/-- `router.post('/')` of `orders.js` (order creation, behind
`requireAdmin`).  `newId`, `orderRef` (the `GS-…` random reference),
`auditId`, `notifId` and `now` stand for the uuids, the
crypto-random reference and `datetime('now')` produced at run time.
Every rejection happens before any write, so rejecting branches return
the state unchanged. -/
def createOrder (st : AppState)
    (gift_recommendation_id event_id approval_id : Option String)
    (newId orderRef auditId notifId now : String) :
    AppState × CreateOrderResult :=
  if emergencyStopActive st then
    (st, .rejected 403 "Emergency stop is active. All purchasing is disabled.")
  else if !(jsStrPresent gift_recommendation_id && jsStrPresent event_id
      && jsStrPresent approval_id) then
    (st, .rejected 400 "gift_recommendation_id, event_id, and approval_id are required")
  else
    match st.approvals.find?
        (fun a => a.id == approval_id.getD "" && a.status == "approved") with
    | none => (st, .rejected 400 "Valid approval in approved status is required before ordering")
    | some _ =>
      match st.gift_recommendations.find? (fun g => g.id == gift_recommendation_id.getD "") with
      | none => (st, .rejected 404 "Gift recommendation not found")
      | some gift =>
        ({ st with
            orders := st.orders ++
              [⟨newId, gift_recommendation_id.getD "", event_id.getD "",
                some (approval_id.getD ""), "ordered", none, some orderRef, some now,
                gift.estimated_delivery, none, none, now, now⟩],
            gift_recommendations := st.gift_recommendations.map
              (fun g => if g.id == gift_recommendation_id.getD ""
                then { g with status := "purchased" } else g),
            audit_log := logAuditT st.audit_log auditId "create_order" "order" (some newId)
              (JVal.obj [("gift", .str gift.name), ("price", .num gift.price),
                ("retailer", .str gift.retailer), ("order_reference", .str orderRef)])
              "owner" now,
            notifications := st.notifications ++
              [⟨notifId, some (event_id.getD ""), some newId, "delivery_confirmed",
                "Order placed: " ++ gift.name ++ " from " ++ gift.retailer
                  ++ ". Reference: " ++ orderRef, 0, now⟩] },
          .created ⟨newId, gift_recommendation_id.getD "", event_id.getD "",
            some (approval_id.getD ""), "ordered", none, some orderRef, some now,
            gift.estimated_delivery, none, none, now, now⟩)

/-! ## settings.js: the emergency-stop route -/

/-- One `UPDATE orders SET status = 'cancelled', updated_at = datetime('now')
WHERE id = ?` statement. -/
def applyCancel (orders : List OrderRow) (oid now : String) : List OrderRow :=
  orders.map (fun o =>
    if o.id == oid then { o with status := "cancelled", updated_at := now } else o)

/-- The cancellation loop of the emergency-stop route: for each previously
selected pending order, cancel it and append one `cancel_order` ledger
entry.  `cancelIds k` supplies the uuid for the `k`-th ledger entry. -/
def cancelPending (cancelIds : Nat → String) (now : String) :
    List OrderRow → Nat → List OrderRow → List AuditEntry →
    List OrderRow × List AuditEntry
  | [], _, orders, log => (orders, log)
  | o :: rest, k, orders, log =>
      cancelPending cancelIds now rest (k + 1) (applyCancel orders o.id now)
        (logAuditT log (cancelIds k) "cancel_order" "order" (some o.id)
          (JVal.obj [("reason", .str "Emergency stop activated")]) "owner" now)

/-- `router.post('/emergency-stop')` of `settings.js` (behind
`requireAdmin`).  Returns the new state, the reported `emergency_stop`
flag, and the reported `cancelled_orders` count (absent on
deactivation). -/
def emergencyStop (st : AppState) (activate : Bool)
    (flipAuditId notifId : String) (cancelIds : Nat → String) (now : String) :
    AppState × Bool × Option Nat :=
  let value := if activate then "true" else "false"
  let settings1 := st.global_settings.map
    (fun s => if s.key == "emergency_stop" then { s with value := value, updated_at := now } else s)
  let log1 := logAuditT st.audit_log flipAuditId "emergency_stop" "global_settings"
    (some "emergency_stop") (JVal.obj [("activated", .bool activate)]) "owner" now
  if activate then
    let pending := st.orders.filter (fun o => o.status == "pending" || o.status == "ordered")
    let cancelled := cancelPending cancelIds now pending 0 st.orders log1
    let notif : NotificationRow :=
      ⟨notifId, none, none, "emergency_stop",
        "EMERGENCY STOP ACTIVATED: All purchasing has been disabled and pending orders cancelled.",
        0, now⟩
    let st2 : AppState :=
      { st with
        global_settings := settings1,
        orders := cancelled.1,
        audit_log := cancelled.2,
        notifications := st.notifications ++ [notif] }
    (st2, true, some pending.length)
  else
    let notif : NotificationRow :=
      ⟨notifId, none, none, "emergency_stop",
        "Emergency stop deactivated. Purchasing is now enabled.", 0, now⟩
    let st2 : AppState :=
      { st with
        global_settings := settings1,
        audit_log := log1,
        notifications := st.notifications ++ [notif] }
    (st2, false, none)

/-! ## orders.js: the status-update route -/

/-- Valid order statuses accepted by `router.put('/:id/status')`. -/
def VALID_ORDER_STATUSES : List String :=
  ["pending", "ordered", "shipped", "delivered", "issue", "cancelled"]

/-- `x || null` on an optional request-body string (empty string becomes null). -/
def jsOrNull : Option String → Option String
  | none => none
  | some s => if s == "" then none else some s

/-- SQL `COALESCE(a, b)`. -/
def sqlCoalesce (a b : Option String) : Option String :=
  match a with
  | some v => some v
  | none => b

/-- Outcome of the status-update route. -/
inductive UpdateStatusResult where
  | ok (o : OrderRow) : UpdateStatusResult
  | err (code : Nat) (error : String) : UpdateStatusResult
deriving Repr, DecidableEq

/-- `router.put('/:id/status')` of `orders.js`.  The route is mounted
behind the global `requireAuth` middleware only — it has no
`requireAdmin` and performs no emergency-stop or approval check. -/
def updateOrderStatus (st : AppState) (orderId : String)
    (status tracking_url issue_description : Option String)
    (auditId notifId now : String) : AppState × UpdateStatusResult :=
  if !(match status with
       | some s => VALID_ORDER_STATUSES.contains s
       | none => false) then
    (st, .err 400 "Invalid status")
  else
    let s := status.getD ""
    match st.orders.find? (fun o => o.id == orderId) with
    | none => (st, .err 404 "Order not found")
    | some existing =>
      let orders2 := st.orders.map (fun o =>
        if o.id == orderId then
          { o with
            status := s,
            tracking_url := sqlCoalesce (jsOrNull tracking_url) o.tracking_url,
            issue_description := sqlCoalesce (jsOrNull issue_description) o.issue_description,
            actual_delivery := if s == "delivered" then some now else o.actual_delivery,
            updated_at := now }
        else o)
      let log2 := logAuditT st.audit_log auditId "update_status" "order" (some orderId)
        (JVal.obj [("old_status", .str existing.status), ("new_status", .str s)]) "owner" now
      let st2 : AppState := { st with orders := orders2, audit_log := log2 }
      let st3 : AppState :=
        if s == "issue" then
          { st2 with notifications := st2.notifications ++
            [⟨notifId, existing.event_id, some orderId, "delivery_issue",
              "Delivery issue with order " ++ (existing.order_reference.getD "null")
                ++ ": " ++ ((jsOrNull issue_description).getD "Unknown issue"), 0, now⟩] }
        else st2
      let st4 : AppState :=
        if s == "delivered" then
          { st3 with
            events := st3.events.map (fun e =>
              if e.id == existing.event_id then
                { e with status := "completed", updated_at := now } else e),
            notifications := st3.notifications ++
              [⟨notifId, existing.event_id, some orderId, "delivery_confirmed",
                "Order " ++ (existing.order_reference.getD "null")
                  ++ " has been delivered!", 0, now⟩] }
        else st3
      match st4.orders.find? (fun o => o.id == orderId) with
      | some updated => (st4, .ok updated)
      | none => (st4, .err 404 "Order not found")

/-- The authenticated principal as attached by `requireAuth`. -/
structure UserCtx where
  id : String
  username : String
  role : String
deriving Repr, DecidableEq

/-- Order creation as routed: `router.post('/', requireAdmin, …)` — the
`requireAdmin` middleware rejects a non-admin caller with 403 before the
handler runs. -/
def routeCreateOrder (user : UserCtx) (st : AppState)
    (gift_recommendation_id event_id approval_id : Option String)
    (newId orderRef auditId notifId now : String) : AppState × CreateOrderResult :=
  if !(user.role == "admin") then (st, .rejected 403 "Admin access required")
  else createOrder st gift_recommendation_id event_id approval_id newId orderRef auditId notifId now

/-- Status update as routed: `router.put('/:id/status', …)` carries no
`requireAdmin` middleware, so the handler runs for every authenticated
caller and the principal is never consulted. -/
def routeUpdateOrderStatus (_user : UserCtx) (st : AppState) (orderId : String)
    (status tracking_url issue_description : Option String)
    (auditId notifId now : String) : AppState × UpdateStatusResult :=
  updateOrderStatus st orderId status tracking_url issue_description auditId notifId now

/-! ## backup.js: export and restore over an untyped row model

The restore engine consumes attacker-controllable JSON, so here a row is
an association list of column name to `JVal` and a database is twelve
such tables (the tables of `EXPORT_TABLES`) plus the `users` table read
by restore re-authentication and the `foreign_keys` pragma flag. -/

/-- An untyped database row: column name to value, in column order. -/
abbrev DbRow := List (String × JVal)

/-- A row of the `users` table (the columns restore re-authentication reads). -/
structure UserRow where
  id : String
  username : String
  password_hash : String
deriving Repr, DecidableEq

/-- The tables of `EXPORT_TABLES`, as an enumeration (name strings below). -/
inductive Tbl where
  | contacts | events | budgets | budget_overrides | gift_recommendations
  | card_messages | approvals | orders | autonomy_settings | notifications
  | global_settings | audit_log
deriving Repr, DecidableEq

/-- The SQL name of a table. -/
def Tbl.name : Tbl → String
  | .contacts => "contacts"
  | .events => "events"
  | .budgets => "budgets"
  | .budget_overrides => "budget_overrides"
  | .gift_recommendations => "gift_recommendations"
  | .card_messages => "card_messages"
  | .approvals => "approvals"
  | .orders => "orders"
  | .autonomy_settings => "autonomy_settings"
  | .notifications => "notifications"
  | .global_settings => "global_settings"
  | .audit_log => "audit_log"

/-- Whole-database state for the backup routes. -/
structure Db where
  contacts : List DbRow
  events : List DbRow
  budgets : List DbRow
  budget_overrides : List DbRow
  gift_recommendations : List DbRow
  card_messages : List DbRow
  approvals : List DbRow
  orders : List DbRow
  autonomy_settings : List DbRow
  notifications : List DbRow
  global_settings : List DbRow
  audit_log : List DbRow
  users : List UserRow
  foreignKeys : Bool
deriving Repr, DecidableEq

/-- `SELECT * FROM t` (rows in storage order). -/
def Db.table (db : Db) : Tbl → List DbRow
  | .contacts => db.contacts
  | .events => db.events
  | .budgets => db.budgets
  | .budget_overrides => db.budget_overrides
  | .gift_recommendations => db.gift_recommendations
  | .card_messages => db.card_messages
  | .approvals => db.approvals
  | .orders => db.orders
  | .autonomy_settings => db.autonomy_settings
  | .notifications => db.notifications
  | .global_settings => db.global_settings
  | .audit_log => db.audit_log

/-- Replace the contents of one table. -/
def Db.setTable (db : Db) : Tbl → List DbRow → Db
  | .contacts, rs => { db with contacts := rs }
  | .events, rs => { db with events := rs }
  | .budgets, rs => { db with budgets := rs }
  | .budget_overrides, rs => { db with budget_overrides := rs }
  | .gift_recommendations, rs => { db with gift_recommendations := rs }
  | .card_messages, rs => { db with card_messages := rs }
  | .approvals, rs => { db with approvals := rs }
  | .orders, rs => { db with orders := rs }
  | .autonomy_settings, rs => { db with autonomy_settings := rs }
  | .notifications, rs => { db with notifications := rs }
  | .global_settings, rs => { db with global_settings := rs }
  | .audit_log, rs => { db with audit_log := rs }

/-- `EXPORT_TABLES` of `backup.js`: all tables included in a JSON export,
in dependency order. -/
def EXPORT_TABLES : List String :=
  ["contacts", "events", "budgets", "budget_overrides", "gift_recommendations",
   "card_messages", "approvals", "orders", "autonomy_settings", "notifications",
   "global_settings", "audit_log"]

/-- `EXPORT_TABLES` as `Tbl` values, in the same order. -/
def EXPORT_TBLS : List Tbl :=
  [.contacts, .events, .budgets, .budget_overrides, .gift_recommendations,
   .card_messages, .approvals, .orders, .autonomy_settings, .notifications,
   .global_settings, .audit_log]

/-- `RESTORE_PROTECTED_TABLES` of `backup.js`: tables never cleared during
restore (append-only). -/
def RESTORE_PROTECTED_TABLES : List String := ["audit_log"]

/-- Whether a table is restore-protected. -/
def isProtected (t : Tbl) : Bool := RESTORE_PROTECTED_TABLES.contains t.name

/-- `ALLOWED_COLUMNS` of `backup.js`: the schema allowlist — only these
columns are permitted during restore. -/
def ALLOWED_COLUMNS : List (String × List String) :=
  [("contacts", ["id", "name", "email", "phone", "relationship", "birthday",
     "anniversary", "other_date", "default_gifts", "preferences", "constraints",
     "notes", "user_id", "created_at", "updated_at"]),
   ("events", ["id", "contact_id", "type", "name", "date", "recurring",
     "lead_time_days", "status", "created_at", "updated_at"]),
   ("budgets", ["id", "category", "default_amount", "created_at", "updated_at"]),
   ("budget_overrides", ["id", "budget_id", "contact_id", "amount", "created_at", "updated_at"]),
   ("gift_recommendations", ["id", "event_id", "name", "description", "price",
     "retailer", "url", "image_url", "in_stock", "estimated_delivery",
     "reasoning", "status", "created_at"]),
   ("card_messages", ["id", "event_id", "tone", "message", "selected", "created_at"]),
   ("approvals", ["id", "event_id", "gift_recommendation_id", "card_message_id",
     "approved_by", "status", "notes", "created_at"]),
   ("orders", ["id", "gift_recommendation_id", "event_id", "approval_id", "status",
     "tracking_url", "order_reference", "ordered_at", "estimated_delivery",
     "actual_delivery", "issue_description", "created_at", "updated_at"]),
   ("autonomy_settings", ["id", "contact_id", "event_type", "level", "max_budget",
     "enabled", "created_at", "updated_at"]),
   ("notifications", ["id", "event_id", "order_id", "type", "message", "read", "created_at"]),
   ("global_settings", ["key", "value", "updated_at"]),
   ("audit_log", ["id", "action", "entity_type", "entity_id", "details",
     "performed_by", "created_at"])]

/-- `COLUMN_TYPES` of `backup.js`: expected value types per column for
type validation. -/
def COLUMN_TYPES : List (String × String) :=
  [("default_amount", "number"), ("amount", "number"), ("price", "number"),
   ("max_budget", "number"), ("recurring", "number"), ("lead_time_days", "number"),
   ("in_stock", "number"), ("selected", "number"), ("read", "number"),
   ("enabled", "number")]

/-- `validateRowValue` of `backup.js`: `null`/`undefined` always pass, a
column without a type constraint accepts anything, a `number` column
requires `typeof value === 'number'`. -/
def validateRowValue (col : String) (value : Option JVal) : Bool :=
  match value with
  | none => true
  | some .null => true
  | some v =>
    match COLUMN_TYPES.lookup col with
    | none => true
    | some expected =>
      if expected == "number" then
        match v with
        | .num _ => true
        | _ => false
      else true

/-- The PRIMARY KEY column of each table (from the schema in
`database.js`: `key` for `global_settings`, `id` everywhere else). -/
def pkOf (t : Tbl) : String :=
  match t with
  | .global_settings => "key"
  | _ => "id"

/-- Whether two primary-key values collide under SQLite semantics: equal
and non-NULL (a missing or NULL TEXT primary key never conflicts). -/
def pkCollides (a b : Option JVal) : Bool :=
  match a, b with
  | some v, some w => v == w && !(v == JVal.null)
  | _, _ => false

/-- Whether a value can be bound as a better-sqlite3 statement parameter
(numbers, strings and null only: binding a boolean, object or array
throws a `TypeError`). -/
def bindableVal : JVal → Bool
  | .num _ => true
  | .str _ => true
  | .null => true
  | _ => false

/-- One entry of the `typeErrors` report. -/
structure TypeErr where
  table : String
  column : String
  expected : String
  got : String
deriving Repr, DecidableEq

/-- The per-row loop of the restore insert phase: validate the value of
each restored column (stopping at the first violation, which skips the
whole row and records one `typeErrors` entry), then bind and run the
prepared `INSERT` / `INSERT OR IGNORE`.  `cur` is the current contents
of the table; a plain `INSERT` throws on a primary-key collision,
`INSERT OR IGNORE` skips the row (but `totalRows` is still incremented
after a successful `stmt.run`). -/
def insertRows (t : Tbl) (cols : List String) :
    List JVal → List DbRow → Nat → List TypeErr →
    Except String (List DbRow × Nat × List TypeErr)
  | [], cur, total, te => .ok (cur, total, te)
  | row :: rest, cur, total, te =>
    match cols.find? (fun c => !validateRowValue c (jsGet row c)) with
    | some c =>
        insertRows t cols rest cur total
          (te ++ [⟨t.name, c, (COLUMN_TYPES.lookup c).getD "", typeofJVal (jsGet row c)⟩])
    | none =>
        if (cols.map (fun c => (c, (jsGet row c).getD JVal.null))).all
            (fun p => bindableVal p.2) then
          if isProtected t then
            if cur.any (fun r => pkCollides (r.lookup (pkOf t))
                ((cols.map (fun c => (c, (jsGet row c).getD JVal.null))).lookup (pkOf t))) then
              insertRows t cols rest cur (total + 1) te
            else
              insertRows t cols rest
                (cur ++ [cols.map (fun c => (c, (jsGet row c).getD JVal.null))]) (total + 1) te
          else
            if cur.any (fun r => pkCollides (r.lookup (pkOf t))
                ((cols.map (fun c => (c, (jsGet row c).getD JVal.null))).lookup (pkOf t))) then
              .error "UNIQUE constraint failed"
            else
              insertRows t cols rest
                (cur ++ [cols.map (fun c => (c, (jsGet row c).getD JVal.null))]) (total + 1) te
        else .error "TypeError: cannot bind parameter"

/-- `for (const row of rows)` requires an iterable: arrays iterate their
elements, strings their characters; anything else throws. -/
def iterElems : JVal → Except String (List JVal)
  | .arr es => .ok es
  | .str s => .ok (s.toList.map (fun c => .str c.toString))
  | _ => .error "TypeError: rows is not iterable"

/-- The body of the restore insert loop for one table of
`EXPORT_TABLES`: skip falsy or empty `data.tables[table]`, skip tables
without an allowlist, intersect the first row's field names with the
allowlist (`Object.keys(rows[0])` throws on `null`/`undefined`), skip
when no column survives, then insert row by row. -/
def processTable (tablesVal : JVal) (st : Db × Nat × List TypeErr) (t : Tbl) :
    Except String (Db × Nat × List TypeErr) :=
  match jsGet tablesVal t.name with
  | none => .ok st
  | some rows =>
    if !(jsTruthy rows) then .ok st
    else if jsLength rows = some (JVal.num 0) then .ok st
    else
      match ALLOWED_COLUMNS.lookup t.name with
      | none => .ok st
      | some allowedCols =>
        match jsIndex rows 0 with
        | none => .error "TypeError: Cannot convert undefined or null to object"
        | some .null => .error "TypeError: Cannot convert undefined or null to object"
        | some r0 =>
          if ((jsKeys r0).filter (fun c => allowedCols.contains c)).length = 0 then .ok st
          else
            match iterElems rows with
            | .error e => .error e
            | .ok rowList =>
              match insertRows t ((jsKeys r0).filter (fun c => allowedCols.contains c)) rowList
                  (st.1.table t) st.2.1 st.2.2 with
              | .error e => .error e
              | .ok r => .ok (st.1.setTable t r.1, r.2.1, r.2.2)

/-- The clear phase: non-protected tables, in reverse dependency order. -/
def clearOrderTbls : List Tbl := (EXPORT_TBLS.filter (fun t => !isProtected t)).reverse

/-- `DELETE FROM t` for every non-protected table. -/
def clearTables (db : Db) : Db := clearOrderTbls.foldl (fun d t => d.setTable t []) db

/-- The function passed to `db.transaction`: clear non-protected tables in
reverse order, then insert table by table in forward order. -/
def restoreBody (db : Db) (tablesVal : JVal) : Except String (Db × Nat × List TypeErr) :=
  EXPORT_TBLS.foldlM (processTable tablesVal) (clearTables db, 0, ([] : List TypeErr))

/-- `restoreTransaction` with better-sqlite3 semantics: a throw inside the
transaction rolls every data change back; the `foreign_keys` pragma is
connection state (not transactional) and the `finally` block re-enables
it on both the commit and the throw path. -/
def restoreTransaction (db : Db) (tablesVal : JVal) :
    Db × Except String (Nat × List TypeErr) :=
  match restoreBody { db with foreignKeys := false } tablesVal with
  | .ok r => ({ r.1 with foreignKeys := true }, .ok (r.2.1, r.2.2))
  | .error e => ({ db with foreignKeys := true }, .error e)

/-- An `audit_log` row as written by `logAudit` of `audit.js` (the
`details` column carries the serialised sanitized details; `created_at`
is the row timestamp). -/
def mkAuditRow (id action entityType : String) (entityId : Option String)
    (details : JVal) (performedBy createdAt : String) : DbRow :=
  [("id", .str id), ("action", .str action), ("entity_type", .str entityType),
   ("entity_id", match entityId with | some s => .str s | none => .null),
   ("details", .str (serializeJVal (sanitizeDetails details))),
   ("performed_by", .str performedBy), ("created_at", .str createdAt)]

/-- Append one ledger row to `audit_log`. -/
def appendAudit (db : Db) (r : DbRow) : Db :=
  db.setTable .audit_log (db.table .audit_log ++ [r])

/-- `GET /api/backup/export`: read every table of `EXPORT_TABLES` in
order into a versioned document, then write one summarizing ledger
entry.  Returns the post-export database and the document. -/
def exportBackup (db : Db) (auditId now : String) : Db × JVal :=
  let tablesJson := JVal.obj (EXPORT_TBLS.map (fun t => (t.name, JVal.arr ((db.table t).map JVal.obj))))
  let data := JVal.obj [("version", .num 1), ("exported_at", .str now), ("tables", tablesJson)]
  let details := JVal.obj [("format", .str "json"),
    ("tables", .num EXPORT_TABLES.length),
    ("total_rows", .num (EXPORT_TBLS.foldl (fun s t => s + (db.table t).length) 0))]
  (appendAudit db (mkAuditRow auditId "export_backup" "system" none details "owner" now), data)

/-- The HTTP outcome of the restore route. -/
inductive RestoreResp where
  | badRequest (error : String) : RestoreResp
  | unauthorized (error : String) : RestoreResp
  | serverError (error : String) : RestoreResp
  | success (total_rows : Nat) (type_errors : List TypeErr) : RestoreResp
deriving Repr, DecidableEq

/-- `POST /api/backup/restore` (behind `requireAdmin` and the confirmation
header): shape and version pre-checks, re-authentication of the caller
(`bcryptCompare` stands for `bcrypt.compare` against the stored hash),
the transaction, and — only after it commits — one `restore_backup`
ledger entry.  A throw inside the transaction is caught and answered
with a generic 500. -/
def runRestore (db : Db) (data : JVal) (reqUserId : String)
    (bcryptCompare : JVal → String → Bool) (auditId now : String) :
    Db × RestoreResp :=
  if !(jsTruthy data) || !(jsTruthyOpt (jsGet data "tables"))
      || !(jsTruthyOpt (jsGet data "version")) then
    (db, .badRequest "Invalid backup file. Expected JSON with version and tables.")
  else if !(jsGet data "version" = some (JVal.num 1)) then
    (db, .badRequest ("Unsupported backup version: "
      ++ serializeJVal ((jsGet data "version").getD .null)))
  else if !(jsTruthyOpt (jsGet data "password")) then
    (db, .badRequest "Password is required to confirm restore operation")
  else
    match db.users.find? (fun u => u.id == reqUserId) with
    | none => (db, .unauthorized "User not found")
    | some user =>
      if !(bcryptCompare ((jsGet data "password").getD .null) user.password_hash) then
        (db, .unauthorized "Incorrect password")
      else
        match restoreTransaction db ((jsGet data "tables").getD .null) with
        | (db2, .error _) => (db2, .serverError "Restore failed. Check server logs for details.")
        | (db2, .ok r) =>
          (appendAudit db2 (mkAuditRow auditId "restore_backup" "system" none
              (JVal.obj [("source_exported_at", (jsGet data "exported_at").getD .null),
                ("tables_restored", .num (jsKeys ((jsGet data "tables").getD .null)).length),
                ("total_rows", .num r.1), ("type_errors", .num r.2.length)])
              "owner" now),
            .success r.1 r.2)

/-- The "valid data set" side condition of the round-trip claim (C4): the
rows of a table are uniform objects — every row carries the (non-empty,
duplicate-free) field-name list of the first row, all field names are on
the table allowlist, every stored value is bindable and passes type
validation, and primary keys do not collide. -/
def TableWF (t : Tbl) (rows : List DbRow) : Bool :=
  match rows with
  | [] => true
  | r0 :: _ =>
      !(r0.map Prod.fst).isEmpty
      && rows.all (fun r => r.map Prod.fst == r0.map Prod.fst)
      && decide (r0.map Prod.fst).Nodup
      && (r0.map Prod.fst).all (fun c => ((ALLOWED_COLUMNS.lookup t.name).getD []).contains c)
      && rows.all (fun r => r.all (fun p => bindableVal p.2 && validateRowValue p.1 (some p.2)))
      && decide (rows.Pairwise (fun a b =>
          pkCollides (a.lookup (pkOf t)) (b.lookup (pkOf t)) = false))

/-! ## Theorems -/

mutual

/-- Sanitized details satisfy the redaction property. -/
theorem redactedOK_sanitize : ∀ (v : JVal), redactedOK (sanitizeDetails v) = true
  | .null => rfl
  | .bool _ => rfl
  | .num _ => rfl
  | .str _ => rfl
  | .arr es => by
      rw [sanitizeDetails, redactedOK]
      exact redactedOKFields_sanitizeIndex ((List.range es.length).map toString) es
  | .obj fs => by
      rw [sanitizeDetails, redactedOK]
      exact redactedOKFields_sanitize fs

/-- Sanitized object fields satisfy the redaction property. -/
theorem redactedOKFields_sanitize : ∀ (fs : List (String × JVal)),
    redactedOKFields (sanitizeFields fs) = true
  | [] => rfl
  | (k, v) :: rest => by
      rw [sanitizeFields]
      by_cases h1 : PII_FIELDS.contains k = true
      · rw [if_pos h1, redactedOKFields, if_pos h1]
        simp [redactedOKFields_sanitize rest]
      · rw [if_neg h1]
        by_cases h2 : (k == "changes" && isObjectLike v) = true
        · rw [if_pos h2, redactedOKFields, if_neg h1]
          rcases Bool.and_eq_true_iff.mp h2 with ⟨hk, _⟩
          rw [if_pos hk]
          simp [redactedOK_sanitize v, redactedOKFields_sanitize rest]
        · rw [if_neg h2, redactedOKFields, if_neg h1]
          by_cases hk : (k == "changes") = true
          · rw [if_pos hk]
            have hov : isObjectLike v = false := by
              cases hvo : isObjectLike v
              · rfl
              · exact absurd (by rw [hk, hvo] ; rfl) h2
            have hv : redactedOK v = true := by
              cases v <;> simp_all [isObjectLike, redactedOK]
            simp [hv, redactedOKFields_sanitize rest]
          · rw [if_neg hk]
            simp [redactedOKFields_sanitize rest]

/-- Sanitized index-keyed (array) fields satisfy the redaction property. -/
theorem redactedOKFields_sanitizeIndex : ∀ (ks : List String) (es : List JVal),
    redactedOKFields (sanitizeIndexFields ks es) = true
  | _, [] => by rw [sanitizeIndexFields] ; rfl
  | [], _ :: _ => rfl
  | k :: ks, v :: es => by
      rw [sanitizeIndexFields]
      by_cases h1 : PII_FIELDS.contains k = true
      · rw [if_pos h1, redactedOKFields, if_pos h1]
        simp [redactedOKFields_sanitizeIndex ks es]
      · rw [if_neg h1]
        by_cases h2 : (k == "changes" && isObjectLike v) = true
        · rw [if_pos h2, redactedOKFields, if_neg h1]
          rcases Bool.and_eq_true_iff.mp h2 with ⟨hk, _⟩
          rw [if_pos hk]
          simp [redactedOK_sanitize v, redactedOKFields_sanitizeIndex ks es]
        · rw [if_neg h2, redactedOKFields, if_neg h1]
          by_cases hk : (k == "changes") = true
          · rw [if_pos hk]
            have hov : isObjectLike v = false := by
              cases hvo : isObjectLike v
              · rfl
              · exact absurd (by rw [hk, hvo] ; rfl) h2
            have hv : redactedOK v = true := by
              cases v <;> simp_all [isObjectLike, redactedOK]
            simp [hv, redactedOKFields_sanitizeIndex ks es]
          · rw [if_neg hk]
            simp [redactedOKFields_sanitizeIndex ks es]

end

/-- C8: for every ledger write (`logAudit`), the persisted entry carries
`sanitizeDetails details` — computed before the write — and the
sanitized details satisfy the redaction property: every key of the
details map whose name is in the fixed sensitive-field set (email,
phone, birthday, anniversary, other_date) carries the literal marker
`"[redacted]"`, recursively through `changes` sub-maps, so the original
value of such a field never reaches the persisted entry. -/
theorem claim_C8 (log : List AuditEntry) (id action entityType : String)
    (entityId : Option String) (details : JVal) (performedBy now : String) :
    logAuditT log id action entityType entityId details performedBy now
      = log ++ [⟨id, action, entityType, entityId, sanitizeDetails details, performedBy, now⟩]
    ∧ redactedOK (sanitizeDetails details) = true :=
  ⟨rfl, redactedOK_sanitize details⟩

/-- A request-body string is present and non-empty iff it is `some s` with
`s ≠ ""`. -/
theorem jsStrPresent_iff (o : Option String) :
    jsStrPresent o = true ↔ ∃ s, o = some s ∧ s ≠ "" := by
  cases o <;> simp [jsStrPresent]

/-- C1: order creation succeeds only when the emergency stop is inactive,
the `approval_id` is present and non-empty, and the referenced approval
exists with status `approved`; every rejection leaves the state
unchanged (no purchase row); a null/absent/empty `approval_id` always
fails; an `approval_id` referencing only `rejected` approvals always
fails; an active switch yields the emergency rejection message and a
missing/unapproved approval yields the approval rejection message. -/
theorem claim_C1 (st : AppState) (grid eid aid : Option String)
    (newId orderRef auditId notifId now : String) :
    (∀ o, (createOrder st grid eid aid newId orderRef auditId notifId now).2 = .created o →
      emergencyStopActive st = false ∧
      ∃ s, aid = some s ∧ s ≠ "" ∧ ∃ a ∈ st.approvals, a.id = s ∧ a.status = "approved") ∧
    (∀ c m, (createOrder st grid eid aid newId orderRef auditId notifId now).2 = .rejected c m →
      (createOrder st grid eid aid newId orderRef auditId notifId now).1 = st) ∧
    (jsStrPresent aid = false →
      ∀ o, (createOrder st grid eid aid newId orderRef auditId notifId now).2 ≠ .created o) ∧
    (∀ s, aid = some s → (∀ a ∈ st.approvals, a.id = s → a.status = "rejected") →
      ∀ o, (createOrder st grid eid aid newId orderRef auditId notifId now).2 ≠ .created o) ∧
    (emergencyStopActive st = true →
      (createOrder st grid eid aid newId orderRef auditId notifId now).2
        = .rejected 403 "Emergency stop is active. All purchasing is disabled.") ∧
    (emergencyStopActive st = false → jsStrPresent grid = true → jsStrPresent eid = true →
      ∀ s, aid = some s → s ≠ "" →
      (∀ a ∈ st.approvals, ¬(a.id = s ∧ a.status = "approved")) →
      (createOrder st grid eid aid newId orderRef auditId notifId now).2
        = .rejected 400 "Valid approval in approved status is required before ordering") := by
  have hmain : ∀ o, (createOrder st grid eid aid newId orderRef auditId notifId now).2
      = .created o →
      emergencyStopActive st = false ∧
      ∃ s, aid = some s ∧ s ≠ "" ∧ ∃ a ∈ st.approvals, a.id = s ∧ a.status = "approved" := by
    intro o h
    unfold createOrder at h
    by_cases hes : emergencyStopActive st = true
    · rw [if_pos hes] at h ; simp at h
    · rw [if_neg hes] at h
      by_cases hp : (!(jsStrPresent grid && jsStrPresent eid && jsStrPresent aid)) = true
      · rw [if_pos hp] at h ; simp at h
      · rw [if_neg hp] at h
        rcases hfa : st.approvals.find?
            (fun a => a.id == aid.getD "" && a.status == "approved") with _ | a
        · rw [hfa] at h ; simp at h
        · rw [hfa] at h
          have hmem := List.mem_of_find?_eq_some hfa
          have hpa := List.find?_some hfa
          simp only [Bool.and_eq_true, beq_iff_eq] at hpa
          have hand : (jsStrPresent grid && jsStrPresent eid && jsStrPresent aid) = true := by
            revert hp
            cases jsStrPresent grid <;> cases jsStrPresent eid <;> cases jsStrPresent aid <;> simp
          have hpres : jsStrPresent aid = true := by
            revert hand
            cases jsStrPresent grid <;> cases jsStrPresent eid <;> cases jsStrPresent aid <;> simp
          rcases (jsStrPresent_iff aid).mp hpres with ⟨s, hs, hsne⟩
          have hesf : emergencyStopActive st = false := by
            cases hx : emergencyStopActive st
            · rfl
            · exact absurd hx hes
          have hgd : aid.getD "" = s := by rw [hs] ; rfl
          exact ⟨hesf, s, hs, hsne, a, hmem, hpa.1.trans hgd, hpa.2⟩
  refine ⟨hmain, ?_, ?_, ?_, ?_, ?_⟩
  · intro c m h
    unfold createOrder at h ⊢
    by_cases hes : emergencyStopActive st = true
    · rw [if_pos hes]
    · rw [if_neg hes] at h ⊢
      by_cases hp : (!(jsStrPresent grid && jsStrPresent eid && jsStrPresent aid)) = true
      · rw [if_pos hp]
      · rw [if_neg hp] at h ⊢
        rcases hfa : st.approvals.find?
            (fun a => a.id == aid.getD "" && a.status == "approved") with _ | a
        · rw [hfa]
        · rw [hfa] at h ⊢
          rcases hfg : st.gift_recommendations.find?
              (fun g => g.id == grid.getD "") with _ | g
          · rw [hfg]
          · rw [hfg] at h ; simp at h
  · intro hnp o h
    rcases hmain o h with ⟨_, s, hs, hsne, _⟩
    rw [hs] at hnp
    simp [jsStrPresent] at hnp
    exact hsne hnp
  · intro s hs hrej o h
    rcases hmain o h with ⟨_, s2, hs2, _, a, hmem, hid, hstat⟩
    rw [hs] at hs2
    have : a.status = "rejected" := hrej a hmem (by rw [hid] ; injection hs2 with h2 ; exact h2.symm)
    rw [hstat] at this
    simp at this
  · intro hes
    unfold createOrder
    rw [if_pos hes]
  · intro hes hg he s hs hsne hnone
    unfold createOrder
    rw [if_neg (by simp [hes])]
    have hpa : jsStrPresent aid = true := (jsStrPresent_iff aid).mpr ⟨s, hs, hsne⟩
    rw [if_neg (by simp [hg, he, hpa])]
    have hgd : aid.getD "" = s := by rw [hs] ; rfl
    have hfa : st.approvals.find? (fun a => a.id == aid.getD "" && a.status == "approved")
        = none := by
      rw [List.find?_eq_none]
      intro a ha hcontra
      simp only [Bool.and_eq_true, beq_iff_eq] at hcontra
      exact hnone a ha ⟨hcontra.1.trans hgd, hcontra.2⟩
    rw [hfa]

/-- C1 witness: with the emergency stop active and no `approval_id`, a
concrete call is rejected with the emergency message, and a rejected
call leaves the state unchanged. -/
theorem claim_C1_witness :
    emergencyStopActive ⟨[⟨"emergency_stop", "true", "t0"⟩], [], [], [], [], [], []⟩ = true
    ∧ (createOrder ⟨[⟨"emergency_stop", "true", "t0"⟩], [], [], [], [], [], []⟩
        none none none "o1" "GS-R" "a1" "n1" "t1").2
      = .rejected 403 "Emergency stop is active. All purchasing is disabled." :=
  ⟨by decide,
    (claim_C1 ⟨[⟨"emergency_stop", "true", "t0"⟩], [], [], [], [], [], []⟩
      none none none "o1" "GS-R" "a1" "n1" "t1").2.2.2.2.1 (by decide)⟩

/-- C9: the purchase gate checks only that the referenced approval exists
with status `approved` — it does not compare the approval's event or
recommendation with the ones being purchased.  Concretely: the only
approval `a1` belongs to event `e1` and recommendation `g1`, yet
creating an order for event `e2` and recommendation `g2` citing `a1`
succeeds and inserts the purchase row. -/
theorem claim_C9 :
    (createOrder
        ⟨[⟨"emergency_stop", "false", "t0"⟩], [],
         [⟨"a1", "e1", some "g1", none, "owner", "approved", "", "t0"⟩],
         [⟨"g2", "e2", "Gift2", none, 10, "R", none, none, 1, none, none, "recommended", "t0"⟩],
         [], [], []⟩
        (some "g2") (some "e2") (some "a1") "o9" "GS-X" "au" "nf" "tn").2
      = .created ⟨"o9", "g2", "e2", some "a1", "ordered", none, some "GS-X", some "tn",
          none, none, none, "tn", "tn"⟩
    ∧ (createOrder
        ⟨[⟨"emergency_stop", "false", "t0"⟩], [],
         [⟨"a1", "e1", some "g1", none, "owner", "approved", "", "t0"⟩],
         [⟨"g2", "e2", "Gift2", none, 10, "R", none, none, 1, none, none, "recommended", "t0"⟩],
         [], [], []⟩
        (some "g2") (some "e2") (some "a1") "o9" "GS-X" "au" "nf" "tn").1.orders
      = [⟨"o9", "g2", "e2", some "a1", "ordered", none, some "GS-X", some "tn",
          none, none, none, "tn", "tn"⟩]
    ∧ ("e1" : String) ≠ "e2" ∧ (some "g1" : Option String) ≠ some "g2" := by
  refine ⟨by decide, by decide, by decide, by decide⟩

/-- A predicate-preserving per-id update commutes with `find?`. -/
theorem find?_map_pred {α : Type} (l : List α) (g : α → α) (p : α → Bool)
    (hp : ∀ o, p (g o) = p o) :
    (l.map g).find? p = (l.find? p).map g := by
  rw [List.find?_map]
  have hc : p ∘ g = p := by funext o ; exact hp o
  rw [hc]

/-- Updating the row with a given id (by an id-preserving update) commutes
with looking that id up. -/
theorem find?_update_id (l : List OrderRow) (oid : String) (upd : OrderRow → OrderRow)
    (hu : ∀ o, (upd o).id = o.id) :
    (l.map (fun o => if o.id == oid then upd o else o)).find? (fun o => o.id == oid)
      = (l.find? (fun o => o.id == oid)).map (fun o => if o.id == oid then upd o else o) := by
  refine find?_map_pred l _ _ ?_
  intro o
  by_cases h : (o.id == oid) = true <;> simp [h, hu o]

/-- C10: the order status-update route accepts any status of the six-value
set from any authenticated caller — the handler never consults the
principal and no administrative role is required — and performs no
emergency-stop or approval check: with the emergency stop active, an
order cancelled by the stop cascade can be set back to `ordered`. -/
theorem claim_C10 :
    (∀ (u v : UserCtx) (st : AppState) (oid : String) (status tu idesc : Option String)
        (aid nid now : String),
      routeUpdateOrderStatus u st oid status tu idesc aid nid now
        = routeUpdateOrderStatus v st oid status tu idesc aid nid now
      ∧ routeUpdateOrderStatus u st oid status tu idesc aid nid now
        = updateOrderStatus st oid status tu idesc aid nid now) ∧
    (∀ (st : AppState) (oid s : String) (tu idesc : Option String) (aid nid now : String),
      s ∈ VALID_ORDER_STATUSES → (∃ o ∈ st.orders, o.id = oid) →
      ∃ o2, (updateOrderStatus st oid (some s) tu idesc aid nid now).2 = .ok o2
        ∧ o2.status = s) ∧
    (∀ (st : AppState) (oid : String) (s tu idesc : Option String) (aid nid now : String),
      (match s with
        | some x => VALID_ORDER_STATUSES.contains x
        | none => false) = false →
      (updateOrderStatus st oid s tu idesc aid nid now).2 = .err 400 "Invalid status") ∧
    (emergencyStopActive
        ⟨[⟨"emergency_stop", "true", "t0"⟩],
         [⟨"o1", "g1", "e1", some "a1", "cancelled", none, some "GS-1", some "t0",
           none, none, none, "t0", "t0"⟩], [], [], [], [], []⟩ = true
      ∧ ((updateOrderStatus
          ⟨[⟨"emergency_stop", "true", "t0"⟩],
           [⟨"o1", "g1", "e1", some "a1", "cancelled", none, some "GS-1", some "t0",
             none, none, none, "t0", "t0"⟩], [], [], [], [], []⟩
          "o1" (some "ordered") none none "au" "nf" "t1").1.orders.map
            (fun o => o.status)) = ["ordered"]) := by
  refine ⟨fun u v st oid status tu idesc aid nid now => ⟨rfl, rfl⟩, ?_, ?_, by decide, by decide⟩
  · intro st oid s tu idesc aid nid now hs hex
    have hcont : VALID_ORDER_STATUSES.contains s = true := List.elem_iff.mpr hs
    rcases hfind : st.orders.find? (fun o => o.id == oid) with _ | ex
    · exfalso
      rcases hex with ⟨o, ho, hid⟩
      have hso : (st.orders.find? (fun o => o.id == oid)).isSome := by
        rw [List.find?_isSome]
        exact ⟨o, ho, by simp [hid]⟩
      rw [hfind] at hso
      simp at hso
    · have hexid := List.find?_some hfind
      simp only [updateOrderStatus, hcont, Bool.not_true, Bool.false_eq_true, if_false,
        Option.getD_some, hfind, apply_ite (f := fun (x : AppState) => x.orders), ite_self]
      rw [find?_update_id st.orders oid
        (fun o => { o with
          status := s,
          tracking_url := sqlCoalesce (jsOrNull tu) o.tracking_url,
          issue_description := sqlCoalesce (jsOrNull idesc) o.issue_description,
          actual_delivery := if s == "delivered" then some now else o.actual_delivery,
          updated_at := now })
        (fun o => rfl)]
      rw [hfind]
      simp only [Option.map, if_pos hexid]
      exact ⟨_, rfl, rfl⟩
  · intro st oid s tu idesc aid nid now hbad
    simp only [updateOrderStatus, hbad, Bool.not_false, if_true]

/-- C10 witness: invoking the status-update conjuncts at concrete inputs:
any valid status is accepted when the order exists. -/
theorem claim_C10_witness :
    ("shipped" : String) ∈ VALID_ORDER_STATUSES
    ∧ (∃ o ∈ ([⟨"o1", "g1", "e1", some "a1", "ordered", none, some "GS-1", some "t0",
          none, none, none, "t0", "t0"⟩] : List OrderRow), o.id = "o1")
    ∧ ∃ o2, (updateOrderStatus
        ⟨[], [⟨"o1", "g1", "e1", some "a1", "ordered", none, some "GS-1", some "t0",
          none, none, none, "t0", "t0"⟩], [], [], [], [], []⟩
        "o1" (some "shipped") none none "au" "nf" "t1").2 = .ok o2
      ∧ o2.status = "shipped" :=
  ⟨by decide, by decide,
    claim_C10.2.1
      ⟨[], [⟨"o1", "g1", "e1", some "a1", "ordered", none, some "GS-1", some "t0",
        none, none, none, "t0", "t0"⟩], [], [], [], [], []⟩
      "o1" "shipped" none none "au" "nf" "t1" (by decide) (by decide)⟩

/-- The orders component of the emergency-stop cancellation loop is the
fold of the per-order `UPDATE` statements, independent of the ledger. -/
theorem cancelPending_fst (cancelIds : Nat → String) (now : String) :
    ∀ (l : List OrderRow) (k : Nat) (orders : List OrderRow) (log : List AuditEntry),
      (cancelPending cancelIds now l k orders log).1
        = l.foldl (fun acc o => applyCancel acc o.id now) orders := by
  intro l
  induction l with
  | nil => intro k orders log ; rfl
  | cons o rest ih =>
      intro k orders log
      rw [cancelPending, List.foldl_cons]
      exact ih (k + 1) (applyCancel orders o.id now) _

/-- The ledger component of the cancellation loop: one `cancel_order`
entry per selected order, in order, with consecutively drawn uuids. -/
theorem cancelPending_snd (cancelIds : Nat → String) (now : String) :
    ∀ (l : List OrderRow) (k : Nat) (orders : List OrderRow) (log : List AuditEntry),
      (cancelPending cancelIds now l k orders log).2
        = log ++ (List.enumFrom k l).map (fun q =>
            ⟨cancelIds q.1, "cancel_order", "order", some q.2.id,
              sanitizeDetails (JVal.obj [("reason", .str "Emergency stop activated")]),
              "owner", now⟩) := by
  intro l
  induction l with
  | nil => intro k orders log ; simp [cancelPending]
  | cons o rest ih =>
      intro k orders log
      rw [cancelPending, ih (k + 1) (applyCancel orders o.id now) _]
      show (log ++ [_]) ++ _ = _
      rw [List.append_assoc]
      rfl

/-- Fusing the fold of per-order `UPDATE`s into one map over the table. -/
theorem foldl_applyCancel (now : String) :
    ∀ (l : List OrderRow) (orders : List OrderRow),
      l.foldl (fun acc o => applyCancel acc o.id now) orders
        = orders.map (fun x => l.foldl
            (fun y c => if y.id == c.id
              then { y with status := "cancelled", updated_at := now } else y) x) := by
  intro l
  induction l with
  | nil => intro orders ; simp
  | cons o rest ih =>
      intro orders
      rw [List.foldl_cons, ih (applyCancel orders o.id now)]
      rw [applyCancel, List.map_map]
      rfl

/-- The per-order cancellation steps never change the row id. -/
theorem cancelSteps_id (now : String) :
    ∀ (l : List OrderRow) (x : OrderRow),
      (l.foldl (fun y c => if y.id == c.id
          then { y with status := "cancelled", updated_at := now } else y) x).id = x.id := by
  intro l
  induction l with
  | nil => intro x ; rfl
  | cons c rest ih =>
      intro x
      rw [List.foldl_cons]
      by_cases h : (x.id == c.id) = true
      · rw [if_pos h, ih]
      · rw [if_neg h, ih]

/-- An order whose id matches none of the selected ids is left unchanged. -/
theorem cancelSteps_skip (now : String) :
    ∀ (l : List OrderRow) (x : OrderRow), (∀ c ∈ l, c.id ≠ x.id) →
      l.foldl (fun y c => if y.id == c.id
          then { y with status := "cancelled", updated_at := now } else y) x = x := by
  intro l
  induction l with
  | nil => intro x _ ; rfl
  | cons c rest ih =>
      intro x h
      rw [List.foldl_cons, if_neg ?_]
      · exact ih x (fun d hd => h d (List.mem_cons_of_mem c hd))
      · intro hc
        exact h c (List.mem_cons_self c rest) ((eq_of_beq hc).symm)

/-- An order that appears (by id, uniquely) among the selected orders
comes out cancelled. -/
theorem cancelSteps_hit (now : String) (l1 l2 : List OrderRow) (x : OrderRow)
    (h1 : ∀ c ∈ l1, c.id ≠ x.id) (h2 : ∀ c ∈ l2, c.id ≠ x.id) :
    (l1 ++ x :: l2).foldl (fun y c => if y.id == c.id
        then { y with status := "cancelled", updated_at := now } else y) x
      = { x with status := "cancelled", updated_at := now } := by
  rw [List.foldl_append, cancelSteps_skip now l1 x h1, List.foldl_cons, if_pos (by simp)]
  refine cancelSteps_skip now l2 _ ?_
  intro c hc
  simpa using h2 c hc

/-- With unique order ids, the cancellation loop over the selected
pending orders cancels exactly those and leaves all others untouched. -/
theorem cancelLoop_spec (now : String) (orders : List OrderRow)
    (hnd : (orders.map OrderRow.id).Nodup) :
    (orders.filter (fun o => o.status == "pending" || o.status == "ordered")).foldl
        (fun acc o => applyCancel acc o.id now) orders
      = orders.map (fun o => if o.status == "pending" || o.status == "ordered"
          then { o with status := "cancelled", updated_at := now } else o) := by
  rw [foldl_applyCancel]
  refine List.map_congr_left ?_
  intro x hx
  by_cases hp : (x.status == "pending" || x.status == "ordered") = true
  · rw [if_pos hp]
    have hxf : x ∈ orders.filter (fun o => o.status == "pending" || o.status == "ordered") :=
      List.mem_filter.mpr ⟨hx, hp⟩
    rcases List.append_of_mem hxf with ⟨l1, l2, hsplit⟩
    have hfnd : ((orders.filter
        (fun o => o.status == "pending" || o.status == "ordered")).map OrderRow.id).Nodup :=
      List.Nodup.sublist (List.Sublist.map OrderRow.id (List.filter_sublist orders)) hnd
    rw [hsplit] at hfnd
    rw [List.map_append, List.map_cons] at hfnd
    rcases List.nodup_append.mp hfnd with ⟨_, hnd2, hdisj⟩
    have h2 : ∀ c ∈ l2, c.id ≠ x.id := by
      intro c hc heq
      rcases List.nodup_cons.mp hnd2 with ⟨hxnot, _⟩
      exact hxnot (heq ▸ List.mem_map_of_mem OrderRow.id hc)
    have h1 : ∀ c ∈ l1, c.id ≠ x.id := by
      intro c hc hceq
      exact hdisj (List.mem_map_of_mem OrderRow.id hc)
        (by rw [hceq] ; exact List.mem_cons_self _ _)
    rw [hsplit, cancelSteps_hit now l1 l2 x h1 h2]
  · rw [if_neg hp]
    refine cancelSteps_skip now _ x ?_
    intro c hc hceq
    have hcm := List.mem_filter.mp hc
    have : c = x := List.inj_on_of_nodup_map hnd hcm.1 hx hceq
    rw [this] at hcm
    exact hp hcm.2

/-- C2: activating the emergency stop cancels exactly the orders whose
status is `pending` or `ordered` (stamping `updated_at`), leaves every
other order unchanged, appends exactly one ledger entry per cancelled
order plus one `emergency_stop` entry for the flip itself, and reports
the number of cancelled orders. -/
theorem claim_C2 (st : AppState) (flipAuditId notifId : String)
    (cancelIds : Nat → String) (now : String)
    (hnd : (st.orders.map OrderRow.id).Nodup) :
    (emergencyStop st true flipAuditId notifId cancelIds now).1.orders
      = st.orders.map (fun o => if o.status == "pending" || o.status == "ordered"
          then { o with status := "cancelled", updated_at := now } else o)
    ∧ (emergencyStop st true flipAuditId notifId cancelIds now).1.audit_log
      = st.audit_log
        ++ ⟨flipAuditId, "emergency_stop", "global_settings", some "emergency_stop",
            sanitizeDetails (JVal.obj [("activated", .bool true)]), "owner", now⟩
          :: (List.enumFrom 0 (st.orders.filter
              (fun o => o.status == "pending" || o.status == "ordered"))).map (fun q =>
            ⟨cancelIds q.1, "cancel_order", "order", some q.2.id,
              sanitizeDetails (JVal.obj [("reason", .str "Emergency stop activated")]),
              "owner", now⟩)
    ∧ (emergencyStop st true flipAuditId notifId cancelIds now).1.audit_log.length
      = st.audit_log.length + 1
        + (st.orders.filter (fun o => o.status == "pending" || o.status == "ordered")).length
    ∧ (emergencyStop st true flipAuditId notifId cancelIds now).2.1 = true
    ∧ (emergencyStop st true flipAuditId notifId cancelIds now).2.2
      = some (st.orders.filter
          (fun o => o.status == "pending" || o.status == "ordered")).length := by
  have horders : (emergencyStop st true flipAuditId notifId cancelIds now).1.orders
      = st.orders.map (fun o => if o.status == "pending" || o.status == "ordered"
          then { o with status := "cancelled", updated_at := now } else o) := by
    simp only [emergencyStop, if_true]
    rw [cancelPending_fst, cancelLoop_spec now st.orders hnd]
  have hlog : (emergencyStop st true flipAuditId notifId cancelIds now).1.audit_log
      = st.audit_log
        ++ ⟨flipAuditId, "emergency_stop", "global_settings", some "emergency_stop",
            sanitizeDetails (JVal.obj [("activated", .bool true)]), "owner", now⟩
          :: (List.enumFrom 0 (st.orders.filter
              (fun o => o.status == "pending" || o.status == "ordered"))).map (fun q =>
            ⟨cancelIds q.1, "cancel_order", "order", some q.2.id,
              sanitizeDetails (JVal.obj [("reason", .str "Emergency stop activated")]),
              "owner", now⟩) := by
    simp only [emergencyStop, if_true]
    rw [cancelPending_snd]
    rw [logAuditT, List.append_assoc]
    rfl
  refine ⟨horders, hlog, ?_, by simp [emergencyStop], by simp [emergencyStop]⟩
  rw [hlog]
  simp [List.length_append, List.enumFrom_length]
  omega

/-- C2 witness: the spec example — three orders `pending`, `ordered`,
`delivered`; activation cancels exactly the first two, leaves the third
`delivered`, logs three new ledger entries and reports two cancelled
orders. -/
theorem claim_C2_witness :
    (([⟨"o1", "g1", "e1", some "a1", "pending", none, none, none, none, none, none, "t0", "t0"⟩,
       ⟨"o2", "g1", "e1", some "a1", "ordered", none, none, none, none, none, none, "t0", "t0"⟩,
       ⟨"o3", "g1", "e1", some "a1", "delivered", none, none, none, none, none, none, "t0", "t0"⟩]
        : List OrderRow).map OrderRow.id).Nodup
    ∧ (emergencyStop
        ⟨[⟨"emergency_stop", "false", "t0"⟩],
         [⟨"o1", "g1", "e1", some "a1", "pending", none, none, none, none, none, none, "t0", "t0"⟩,
          ⟨"o2", "g1", "e1", some "a1", "ordered", none, none, none, none, none, none, "t0", "t0"⟩,
          ⟨"o3", "g1", "e1", some "a1", "delivered", none, none, none, none, none, none, "t0", "t0"⟩],
         [], [], [], [], []⟩
        true "f1" "n1" (fun k => Nat.repr k) "t1").1.orders.map (fun o => o.status)
      = ["cancelled", "cancelled", "delivered"]
    ∧ (emergencyStop
        ⟨[⟨"emergency_stop", "false", "t0"⟩],
         [⟨"o1", "g1", "e1", some "a1", "pending", none, none, none, none, none, none, "t0", "t0"⟩,
          ⟨"o2", "g1", "e1", some "a1", "ordered", none, none, none, none, none, none, "t0", "t0"⟩,
          ⟨"o3", "g1", "e1", some "a1", "delivered", none, none, none, none, none, none, "t0", "t0"⟩],
         [], [], [], [], []⟩
        true "f1" "n1" (fun k => Nat.repr k) "t1").1.audit_log.length = 3
    ∧ (emergencyStop
        ⟨[⟨"emergency_stop", "false", "t0"⟩],
         [⟨"o1", "g1", "e1", some "a1", "pending", none, none, none, none, none, none, "t0", "t0"⟩,
          ⟨"o2", "g1", "e1", some "a1", "ordered", none, none, none, none, none, none, "t0", "t0"⟩,
          ⟨"o3", "g1", "e1", some "a1", "delivered", none, none, none, none, none, none, "t0", "t0"⟩],
         [], [], [], [], []⟩
        true "f1" "n1" (fun k => Nat.repr k) "t1").2.2 = some 2 := by
  refine ⟨by decide, ?_, ?_, ?_⟩
  · rw [(claim_C2 _ "f1" "n1" (fun k => Nat.repr k) "t1" (by decide)).1]
    decide
  · rw [(claim_C2 _ "f1" "n1" (fun k => Nat.repr k) "t1" (by decide)).2.2.1]
    decide
  · rw [(claim_C2 _ "f1" "n1" (fun k => Nat.repr k) "t1" (by decide)).2.2.2.2]
    decide

/-- Reading back the table just written. -/
theorem table_setTable_same (db : Db) (t : Tbl) (rs : List DbRow) :
    (db.setTable t rs).table t = rs := by
  cases t <;> rfl

/-- Writing one table leaves every other table unchanged. -/
theorem table_setTable_ne (db : Db) (t t2 : Tbl) (rs : List DbRow) (h : t ≠ t2) :
    (db.setTable t rs).table t2 = db.table t2 := by
  cases t <;> cases t2 <;> first | rfl | exact absurd rfl h

/-- Writing a table does not touch `users`. -/
theorem setTable_users (db : Db) (t : Tbl) (rs : List DbRow) :
    (db.setTable t rs).users = db.users := by
  cases t <;> rfl

/-- Writing a table does not touch the `foreign_keys` pragma. -/
theorem setTable_fk (db : Db) (t : Tbl) (rs : List DbRow) :
    (db.setTable t rs).foreignKeys = db.foreignKeys := by
  cases t <;> rfl

/-- Emptying a list of tables in sequence, described table by table. -/
theorem foldl_setTable_table (ts : List Tbl) (db : Db) (t : Tbl) :
    (ts.foldl (fun d u => d.setTable u []) db).table t
      = if t ∈ ts then [] else db.table t := by
  induction ts generalizing db with
  | nil => simp
  | cons u rest ih =>
      rw [List.foldl_cons, ih]
      by_cases h : t ∈ rest
      · simp [h]
      · by_cases h2 : t = u
        · subst h2
          simp [h, table_setTable_same]
        · simp [h, h2, table_setTable_ne db u t [] (Ne.symm h2)]

/-- Emptying tables does not touch `users`. -/
theorem foldl_setTable_users (ts : List Tbl) (db : Db) :
    (ts.foldl (fun d u => d.setTable u []) db).users = db.users := by
  induction ts generalizing db with
  | nil => rfl
  | cons u rest ih => rw [List.foldl_cons, ih, setTable_users]

/-- A table (of the fixed set) is in the clear list iff it is not protected. -/
theorem mem_clearOrderTbls (t : Tbl) : (t ∈ clearOrderTbls) ↔ isProtected t = false := by
  cases t <;> simp [clearOrderTbls, EXPORT_TBLS, isProtected, RESTORE_PROTECTED_TABLES, Tbl.name]

/-- The delete phase empties exactly the non-protected tables; in
particular it never touches the protected `audit_log` table. -/
theorem clearTables_table (db : Db) (t : Tbl) :
    (clearTables db).table t = if isProtected t then db.table t else [] := by
  rw [clearTables, foldl_setTable_table]
  by_cases h : isProtected t = true
  · rw [if_pos h, if_neg (by rw [mem_clearOrderTbls, h] ; simp)]
  · rw [if_neg h, if_pos (by rw [mem_clearOrderTbls] ; simpa using h)]

/-- The delete phase never touches the protected `audit_log` table. -/
theorem clearTables_audit (db : Db) :
    (clearTables db).table .audit_log = db.table .audit_log := by
  rw [clearTables_table]
  rfl

/-- The delete phase does not touch `users`. -/
theorem clearTables_users (db : Db) : (clearTables db).users = db.users :=
  foldl_setTable_users _ db

/-- The insert loop only appends rows to the table, and each appended row
has a primary key that collides with no row already present when the
loop started. -/
theorem insertRows_appends (t : Tbl) (cols : List String) :
    ∀ (rows : List JVal) (cur : List DbRow) (total : Nat) (te : List TypeErr)
      (cur2 : List DbRow) (n2 : Nat) (te2 : List TypeErr),
      insertRows t cols rows cur total te = .ok (cur2, n2, te2) →
      ∃ ex, cur2 = cur ++ ex
        ∧ ∀ x ∈ ex, ∀ r ∈ cur, pkCollides (r.lookup (pkOf t)) (x.lookup (pkOf t)) = false := by
  intro rows
  induction rows with
  | nil =>
      intro cur total te cur2 n2 te2 h
      rw [insertRows] at h
      injection h with h
      injection h with h1 h2
      exact ⟨[], by rw [← h1] ; simp, by simp⟩
  | cons row rest ih =>
      intro cur total te cur2 n2 te2 h
      rw [insertRows] at h
      split at h
      · exact ih cur total _ cur2 n2 te2 h
      · split at h
        · split at h
          · split at h
            · exact ih cur _ te cur2 n2 te2 h
            · rename_i hcoll
              rcases ih _ _ te cur2 n2 te2 h with ⟨ex, hex, hfree⟩
              refine ⟨(cols.map (fun c => (c, (jsGet row c).getD JVal.null))) :: ex,
                by rw [hex] ; simp, ?_⟩
              intro x hx r hr
              rcases List.mem_cons.mp hx with hx1 | hx2
              · rw [hx1]
                have hall := List.any_eq_false.mp (Bool.eq_false_iff.mpr hcoll)
                simpa using hall r hr
              · exact hfree x hx2 r (List.mem_append_left _ hr)
          · split at h
            · exact absurd h (by simp)
            · rename_i hcoll
              rcases ih _ _ te cur2 n2 te2 h with ⟨ex, hex, hfree⟩
              refine ⟨(cols.map (fun c => (c, (jsGet row c).getD JVal.null))) :: ex,
                by rw [hex] ; simp, ?_⟩
              intro x hx r hr
              rcases List.mem_cons.mp hx with hx1 | hx2
              · rw [hx1]
                have hall := List.any_eq_false.mp (Bool.eq_false_iff.mpr hcoll)
                simpa using hall r hr
              · exact hfree x hx2 r (List.mem_append_left _ hr)
        · exact absurd h (by simp)

/-- One insert-phase step only appends to `audit_log`, and everything it
appends is collision-free against the rows already there. -/
theorem processTable_audit (tablesVal : JVal) (st : Db × Nat × List TypeErr) (t : Tbl)
    (db2 : Db) (n2 : Nat) (te2 : List TypeErr)
    (h : processTable tablesVal st t = .ok (db2, n2, te2)) :
    ∃ ex, db2.table .audit_log = st.1.table .audit_log ++ ex
      ∧ ∀ x ∈ ex, ∀ r ∈ st.1.table .audit_log,
          pkCollides (r.lookup "id") (x.lookup "id") = false := by
  rw [processTable] at h
  split at h
  · injection h with h
    exact ⟨[], by rw [h] ; simp, by simp⟩
  · split at h
    · injection h with h
      exact ⟨[], by rw [h] ; simp, by simp⟩
    · split at h
      · injection h with h
        exact ⟨[], by rw [h] ; simp, by simp⟩
      · split at h
        · injection h with h
          exact ⟨[], by rw [h] ; simp, by simp⟩
        · split at h
          · simp at h
          · simp at h
          · split at h
            · injection h with h
              exact ⟨[], by rw [h] ; simp, by simp⟩
            · split at h
              · simp at h
              · split at h
                · simp at h
                · rename_i y hins
                  injection h with h
                  have hdb : st.1.setTable t y.1 = db2 := congrArg Prod.fst h
                  by_cases ht : t = .audit_log
                  · subst ht
                    rcases insertRows_appends _ _ _ _ _ _ _ _ _ hins with ⟨ex, hex, hfree⟩
                    refine ⟨ex, ?_, ?_⟩
                    · rw [← hdb]
                      show (st.1.setTable _ y.1).table _ = _
                      rw [table_setTable_same, hex]
                    · intro x hx r hr
                      exact hfree x hx r hr
                  · refine ⟨[], ?_, by simp⟩
                    rw [← hdb]
                    show (st.1.setTable t y.1).table _ = _
                    rw [table_setTable_ne _ _ _ _ ht]
                    simp

/-- The whole insert phase only appends to `audit_log`, collision-free
against the rows present when it started. -/
theorem foldlM_processTable_audit (tablesVal : JVal) :
    ∀ (ts : List Tbl) (st : Db × Nat × List TypeErr) (db2 : Db) (n2 : Nat) (te2 : List TypeErr),
      List.foldlM (processTable tablesVal) st ts = .ok (db2, n2, te2) →
      ∃ ex, db2.table .audit_log = st.1.table .audit_log ++ ex
        ∧ ∀ x ∈ ex, ∀ r ∈ st.1.table .audit_log,
            pkCollides (r.lookup "id") (x.lookup "id") = false := by
  intro ts
  induction ts with
  | nil =>
      intro st db2 n2 te2 h
      rw [List.foldlM_nil] at h
      injection h with h
      exact ⟨[], by rw [h] ; simp, by simp⟩
  | cons u rest ih =>
      intro st db2 n2 te2 h
      rw [List.foldlM_cons] at h
      rcases hu : processTable tablesVal st u with e | st1
      · rw [hu] at h
        exact absurd h (by simp [Bind.bind, Except.bind])
      · rw [hu] at h
        rw [show ((Except.ok st1 : Except String (Db × Nat × List TypeErr)) >>=
            fun st2 => List.foldlM (processTable tablesVal) st2 rest)
          = List.foldlM (processTable tablesVal) st1 rest from rfl] at h
        rcases ih st1 db2 n2 te2 h with ⟨ex2, hex2, hfree2⟩
        rcases processTable_audit tablesVal st u st1.1 st1.2.1 st1.2.2
            (by rw [hu]) with ⟨ex1, hex1, hfree1⟩
        refine ⟨ex1 ++ ex2, ?_, ?_⟩
        · rw [hex2, hex1, List.append_assoc]
        · intro x hx r hr
          rcases List.mem_append.mp hx with hx1 | hx2
          · exact hfree1 x hx1 r hr
          · exact hfree2 x hx2 r (by rw [hex1] ; exact List.mem_append_left _ hr)

/-- The restore transaction body only appends to `audit_log`, and each
appended row has a fresh (collision-free) primary key. -/
theorem restoreBody_audit (db : Db) (tablesVal : JVal) (db2 : Db) (n2 : Nat)
    (te2 : List TypeErr)
    (h : restoreBody { db with foreignKeys := false } tablesVal = .ok (db2, n2, te2)) :
    ∃ ex, db2.table .audit_log = db.table .audit_log ++ ex
      ∧ ∀ x ∈ ex, ∀ r ∈ db.table .audit_log,
          pkCollides (r.lookup "id") (x.lookup "id") = false := by
  rw [restoreBody] at h
  rcases foldlM_processTable_audit tablesVal EXPORT_TBLS _ db2 n2 te2 h with ⟨ex, hex, hfree⟩
  have hca : (clearTables { db with foreignKeys := false }).table .audit_log
      = db.table .audit_log := clearTables_audit _
  rw [hca] at hex hfree
  exact ⟨ex, hex, hfree⟩

/-- C3: every failing restore leaves the store unchanged.  A snapshot with
falsy shape (missing `tables` or `version`), an unsupported version, a
missing password, an unknown caller or a failed password check is
rejected with the data untouched; an exception inside the restore
transaction rolls back every deletion and insertion (the resulting
state is the pre-restore state with only the `foreign_keys` pragma
re-enabled) and writes no ledger entry; the `restore_backup` ledger
entry is written only on the success path, after the transaction
result is in hand. -/
theorem claim_C3 (db : Db) (data : JVal) (reqUserId : String)
    (bc : JVal → String → Bool) (auditId now : String) :
    ((!(jsTruthy data) || !(jsTruthyOpt (jsGet data "tables"))
        || !(jsTruthyOpt (jsGet data "version"))) = true →
      runRestore db data reqUserId bc auditId now
        = (db, .badRequest "Invalid backup file. Expected JSON with version and tables.")) ∧
    (∀ m, (runRestore db data reqUserId bc auditId now).2 = .badRequest m →
      (runRestore db data reqUserId bc auditId now).1 = db) ∧
    (∀ m, (runRestore db data reqUserId bc auditId now).2 = .unauthorized m →
      (runRestore db data reqUserId bc auditId now).1 = db) ∧
    (∀ m, (runRestore db data reqUserId bc auditId now).2 = .serverError m →
      (runRestore db data reqUserId bc auditId now).1 = { db with foreignKeys := true }) ∧
    (∀ m, (runRestore db data reqUserId bc auditId now).2 = .serverError m →
      (runRestore db data reqUserId bc auditId now).1.table .audit_log
        = db.table .audit_log) ∧
    (∀ n te, (runRestore db data reqUserId bc auditId now).2 = .success n te →
      ∃ db2 d, restoreTransaction db ((jsGet data "tables").getD .null) = (db2, .ok (n, te))
        ∧ (runRestore db data reqUserId bc auditId now).1
          = appendAudit db2 (mkAuditRow auditId "restore_backup" "system" none d "owner" now)
        ∧ (runRestore db data reqUserId bc auditId now).1.foreignKeys = true) := by
  by_cases h1 : (!(jsTruthy data) || !(jsTruthyOpt (jsGet data "tables"))
      || !(jsTruthyOpt (jsGet data "version"))) = true
  · have hr : runRestore db data reqUserId bc auditId now
        = (db, .badRequest "Invalid backup file. Expected JSON with version and tables.") := by
      rw [runRestore, if_pos h1]
    refine ⟨fun _ => hr, fun m _ => by rw [hr], fun m hm => by rw [hr] at hm ; simp at hm,
      fun m hm => by rw [hr] at hm ; simp at hm,
      fun m hm => by rw [hr] at hm ; simp at hm,
      fun n te hs => by rw [hr] at hs ; simp at hs⟩
  · refine ⟨fun hc => absurd hc h1, ?_⟩
    rw [runRestore, if_neg h1]
    by_cases h2 : (!(jsGet data "version" = some (JVal.num 1))) = true
    · rw [if_pos h2]
      exact ⟨fun m _ => rfl, fun m hm => by simp at hm, fun m hm => by simp at hm,
        fun m hm => by simp at hm, fun n te hs => by simp at hs⟩
    · rw [if_neg h2]
      by_cases h3 : (!(jsTruthyOpt (jsGet data "password"))) = true
      · rw [if_pos h3]
        exact ⟨fun m _ => rfl, fun m hm => by simp at hm, fun m hm => by simp at hm,
          fun m hm => by simp at hm, fun n te hs => by simp at hs⟩
      · rw [if_neg h3]
        rcases hu : db.users.find? (fun u => u.id == reqUserId) with _ | user
        · exact ⟨fun m hm => by simp [hu] at hm, fun m _ => by simp [hu],
            fun m hm => by simp [hu] at hm, fun m hm => by simp [hu] at hm,
            fun n te hs => by simp [hu] at hs⟩
        · simp only [hu]
          by_cases h4 : (!(bc ((jsGet data "password").getD .null) user.password_hash)) = true
          · rw [if_pos h4]
            exact ⟨fun m hm => by simp at hm, fun m _ => rfl, fun m hm => by simp at hm,
              fun m hm => by simp at hm, fun n te hs => by simp at hs⟩
          · rw [if_neg h4]
            rcases ht : restoreTransaction db ((jsGet data "tables").getD .null)
                with ⟨db2, res⟩
            rcases res with e | r
            · simp only [ht]
              have hdb2 : db2 = { db with foreignKeys := true } := by
                rw [restoreTransaction] at ht
                rcases hb : restoreBody { db with foreignKeys := false }
                    ((jsGet data "tables").getD .null) with e2 | y
                · rw [hb] at ht
                  injection ht with ha _
                  rw [← ha]
                · rw [hb] at ht
                  simp at ht
              exact ⟨fun m hm => by simp at hm, fun m hm => by simp at hm,
                fun m _ => by rw [hdb2], fun m _ => by rw [hdb2] ; rfl,
                fun n te hs => by simp at hs⟩
            · simp only [ht]
              have hfk2 : db2.foreignKeys = true := by
                rw [restoreTransaction] at ht
                rcases hb : restoreBody { db with foreignKeys := false }
                    ((jsGet data "tables").getD .null) with e2 | y
                · rw [hb] at ht
                  simp at ht
                · rw [hb] at ht
                  injection ht with ha _
                  rw [← ha]
              refine ⟨fun m hm => by simp at hm, fun m hm => by simp at hm,
                fun m hm => by simp at hm, fun m hm => by simp at hm, ?_⟩
              intro n te hs
              injection hs with hn hte
              rw [← hn, ← hte]
              refine ⟨db2, _, rfl, rfl, ?_⟩
              show (appendAudit db2 _).foreignKeys = true
              rw [appendAudit, setTable_fk]
              exact hfk2

/-- C3 witness: a falsy body is rejected with the shape message and the
database untouched. -/
theorem claim_C3_witness :
    ((!(jsTruthy (JVal.num 0)) || !(jsTruthyOpt (jsGet (JVal.num 0) "tables"))
        || !(jsTruthyOpt (jsGet (JVal.num 0) "version"))) = true)
    ∧ runRestore ⟨[], [], [], [], [], [], [], [], [], [], [], [], [⟨"u1", "admin", "h"⟩], true⟩
        (JVal.num 0) "u1" (fun _ _ => true) "a1" "t1"
      = (⟨[], [], [], [], [], [], [], [], [], [], [], [], [⟨"u1", "admin", "h"⟩], true⟩,
          .badRequest "Invalid backup file. Expected JSON with version and tables.") :=
  ⟨by decide,
    (claim_C3 ⟨[], [], [], [], [], [], [], [], [], [], [], [], [⟨"u1", "admin", "h"⟩], true⟩
      (JVal.num 0) "u1" (fun _ _ => true) "a1" "t1").1 (by decide)⟩

/-- Every run of the restore route leaves the database unchanged, rolled
back, or restored with one trailing `restore_backup` ledger entry. -/
theorem runRestore_cases (db : Db) (data : JVal) (reqUserId : String)
    (bc : JVal → String → Bool) (auditId now : String) :
    (runRestore db data reqUserId bc auditId now).1 = db
    ∨ (runRestore db data reqUserId bc auditId now).1 = { db with foreignKeys := true }
    ∨ ∃ db2 n te,
        restoreTransaction db ((jsGet data "tables").getD .null) = (db2, .ok (n, te))
        ∧ ∃ d, (runRestore db data reqUserId bc auditId now).1
          = appendAudit db2 (mkAuditRow auditId "restore_backup" "system" none d "owner" now) := by
  rw [runRestore]
  by_cases h1 : (!(jsTruthy data) || !(jsTruthyOpt (jsGet data "tables"))
      || !(jsTruthyOpt (jsGet data "version"))) = true
  · rw [if_pos h1]
    exact .inl rfl
  · rw [if_neg h1]
    by_cases h2 : (!(jsGet data "version" = some (JVal.num 1))) = true
    · rw [if_pos h2]
      exact .inl rfl
    · rw [if_neg h2]
      by_cases h3 : (!(jsTruthyOpt (jsGet data "password"))) = true
      · rw [if_pos h3]
        exact .inl rfl
      · rw [if_neg h3]
        rcases hu : db.users.find? (fun u => u.id == reqUserId) with _ | user
        · exact .inl (by simp [hu])
        · simp only [hu]
          by_cases h4 : (!(bc ((jsGet data "password").getD .null) user.password_hash)) = true
          · rw [if_pos h4]
            exact .inl rfl
          · rw [if_neg h4]
            rcases ht : restoreTransaction db ((jsGet data "tables").getD .null) with ⟨db2, res⟩
            rcases res with e | r
            · simp only [ht]
              have hdb2 : db2 = { db with foreignKeys := true } := by
                rw [restoreTransaction] at ht
                rcases hb : restoreBody { db with foreignKeys := false }
                    ((jsGet data "tables").getD .null) with e2 | y
                · rw [hb] at ht
                  injection ht with ha _
                  rw [← ha]
                · rw [hb] at ht
                  simp at ht
              exact .inr (.inl hdb2)
            · simp only [ht]
              exact .inr (.inr ⟨db2, r.1, r.2, rfl, _, rfl⟩)

/-- A successful restore transaction only appends collision-free rows to
the protected `audit_log` table. -/
theorem restoreTransaction_audit (db : Db) (tablesVal : JVal) (db2 : Db)
    (n : Nat) (te : List TypeErr)
    (h : restoreTransaction db tablesVal = (db2, .ok (n, te))) :
    ∃ ex, db2.table .audit_log = db.table .audit_log ++ ex
      ∧ ∀ x ∈ ex, ∀ r ∈ db.table .audit_log,
          pkCollides (r.lookup "id") (x.lookup "id") = false := by
  rw [restoreTransaction] at h
  rcases hb : restoreBody { db with foreignKeys := false } tablesVal with e2 | y
  · rw [hb] at h
    simp at h
  · rw [hb] at h
    injection h with ha _
    rcases restoreBody_audit db tablesVal y.1 y.2.1 y.2.2 (by rw [hb]) with ⟨ex, hex, hfree⟩
    refine ⟨ex, ?_, hfree⟩
    rw [← ha]
    show y.1.table .audit_log = _
    exact hex

/-- C5: restore never deletes an existing ledger row.  The delete phase
walks only non-protected tables (`audit_log` is not in the clear list);
every run of the restore route leaves the prior `audit_log` rows as a
prefix of the resulting table (so its row count never decreases, in
particular for a snapshot with an empty ledger collection); and when
every existing ledger row carries a non-NULL id distinct from the fresh
entry id, no existing row is ever duplicated or overwritten. -/
theorem claim_C5 (db : Db) (data : JVal) (reqUserId : String)
    (bc : JVal → String → Bool) (auditId now : String) :
    Tbl.audit_log ∉ clearOrderTbls
    ∧ (∃ extra, (runRestore db data reqUserId bc auditId now).1.table .audit_log
        = db.table .audit_log ++ extra)
    ∧ (db.table .audit_log).length
        ≤ ((runRestore db data reqUserId bc auditId now).1.table .audit_log).length
    ∧ ((∀ r ∈ db.table .audit_log, pkCollides (r.lookup "id") (r.lookup "id") = true) →
       (∀ r ∈ db.table .audit_log, ¬ r.lookup "id" = some (.str auditId)) →
       ∀ r ∈ db.table .audit_log,
         List.count r ((runRestore db data reqUserId bc auditId now).1.table .audit_log)
           = List.count r (db.table .audit_log)) := by
  have hprefix : ∃ extra, (runRestore db data reqUserId bc auditId now).1.table .audit_log
      = db.table .audit_log ++ extra
      ∧ ∀ x ∈ extra, (∀ r ∈ db.table .audit_log,
            pkCollides (r.lookup "id") (x.lookup "id") = false)
          ∨ x.lookup "id" = some (.str auditId) := by
    rcases runRestore_cases db data reqUserId bc auditId now with hc | hc | hc
    · exact ⟨[], by rw [hc] ; simp, by simp⟩
    · exact ⟨[], by rw [hc] ; simp [Db.table], by simp⟩
    · rcases hc with ⟨db2, n, te, ht, d, hr⟩
      rcases restoreTransaction_audit db _ db2 n te ht with ⟨ex, hex, hfree⟩
      refine ⟨ex ++ [mkAuditRow auditId "restore_backup" "system" none d "owner" now], ?_, ?_⟩
      · rw [hr, appendAudit, table_setTable_same, hex, List.append_assoc]
      · intro x hx
        rcases List.mem_append.mp hx with hx1 | hx2
        · exact .inl (fun r hr2 => hfree x hx1 r hr2)
        · refine .inr ?_
          rw [List.mem_singleton.mp hx2]
          rfl
  rcases hprefix with ⟨extra, hex, hfacts⟩
  refine ⟨by decide, ⟨extra, hex⟩, by rw [hex] ; simp, ?_⟩
  intro hself hfresh r hr
  rw [hex, List.count_append]
  have hz : List.count r extra = 0 := by
    rw [List.count_eq_zero]
    intro hmem
    rcases hfacts r hmem with hc | hc
    · have := hc r hr
      rw [hself r hr] at this
      simp at this
    · exact hfresh r hr hc
  rw [hz]
  omega

/-- C5 witness: restoring a snapshot whose ledger collection duplicates
the one existing ledger row neither deletes nor duplicates it. -/
theorem claim_C5_witness :
    ((∀ r ∈ (⟨[], [], [], [], [], [], [], [], [], [], [],
        [[("id", JVal.str "x1"), ("action", JVal.str "a"), ("entity_type", JVal.str "e"),
          ("entity_id", JVal.null), ("details", JVal.str "d"), ("performed_by", JVal.str "o"),
          ("created_at", JVal.str "t0")]],
        [⟨"u1", "admin", "h"⟩], true⟩ : Db).table .audit_log,
        pkCollides (r.lookup "id") (r.lookup "id") = true))
    ∧ List.count
        [("id", JVal.str "x1"), ("action", JVal.str "a"), ("entity_type", JVal.str "e"),
          ("entity_id", JVal.null), ("details", JVal.str "d"), ("performed_by", JVal.str "o"),
          ("created_at", JVal.str "t0")]
        ((runRestore ⟨[], [], [], [], [], [], [], [], [], [], [],
            [[("id", JVal.str "x1"), ("action", JVal.str "a"), ("entity_type", JVal.str "e"),
              ("entity_id", JVal.null), ("details", JVal.str "d"), ("performed_by", JVal.str "o"),
              ("created_at", JVal.str "t0")]],
            [⟨"u1", "admin", "h"⟩], true⟩
          (JVal.obj [("version", JVal.num 1),
            ("tables", JVal.obj [("audit_log", JVal.arr
              [JVal.obj [("id", JVal.str "x1"), ("action", JVal.str "a"),
                ("entity_type", JVal.str "e"), ("entity_id", JVal.null),
                ("details", JVal.str "d"), ("performed_by", JVal.str "o"),
                ("created_at", JVal.str "t0")]])]),
            ("password", JVal.str "pw")])
          "u1" (fun _ _ => true) "fresh-id" "t9").1.table .audit_log)
      = List.count
        [("id", JVal.str "x1"), ("action", JVal.str "a"), ("entity_type", JVal.str "e"),
          ("entity_id", JVal.null), ("details", JVal.str "d"), ("performed_by", JVal.str "o"),
          ("created_at", JVal.str "t0")]
        ((⟨[], [], [], [], [], [], [], [], [], [], [],
          [[("id", JVal.str "x1"), ("action", JVal.str "a"), ("entity_type", JVal.str "e"),
            ("entity_id", JVal.null), ("details", JVal.str "d"), ("performed_by", JVal.str "o"),
            ("created_at", JVal.str "t0")]],
          [⟨"u1", "admin", "h"⟩], true⟩ : Db).table .audit_log) :=
  ⟨by decide,
    (claim_C5 _ _ "u1" (fun _ _ => true) "fresh-id" "t9").2.2.2
      (by decide) (by decide) _ (by decide)⟩

/-- C6 counterexample: the restored column set is computed from the FIRST
row only (`Object.keys(rows[0])`), so the allowlisted field `category`
carried by the second budgets row is dropped: after this restore the
second row has no `category` field even though `category` is on the
budgets allowlist — refuting the per-row intersection as claimed. -/
theorem claim_C6_counterexample :
    (runRestore ⟨[], [], [], [], [], [], [], [], [], [], [], [], [⟨"u1", "admin", "h"⟩], true⟩
        (JVal.obj [("version", JVal.num 1),
          ("tables", JVal.obj [("budgets", JVal.arr
            [JVal.obj [("id", JVal.str "a")],
             JVal.obj [("id", JVal.str "b"), ("category", JVal.str "x")]])]),
          ("password", JVal.str "pw")])
        "u1" (fun _ _ => true) "aid" "t1").1.table .budgets
      = [[("id", JVal.str "a")], [("id", JVal.str "b")]]
    ∧ (∀ x ∈ (runRestore ⟨[], [], [], [], [], [], [], [], [], [], [], [],
          [⟨"u1", "admin", "h"⟩], true⟩
        (JVal.obj [("version", JVal.num 1),
          ("tables", JVal.obj [("budgets", JVal.arr
            [JVal.obj [("id", JVal.str "a")],
             JVal.obj [("id", JVal.str "b"), ("category", JVal.str "x")]])]),
          ("password", JVal.str "pw")])
        "u1" (fun _ _ => true) "aid" "t1").1.table .budgets,
        ("category", JVal.str "x") ∉ x)
    ∧ "category" ∈ (ALLOWED_COLUMNS.lookup "budgets").getD [] := by
  refine ⟨by decide, by decide, by decide⟩

/-- The insert loop appends rows whose field-name list is exactly the
supplied column list. -/
theorem insertRows_keys (t : Tbl) (cols : List String) :
    ∀ (rows : List JVal) (cur : List DbRow) (total : Nat) (te : List TypeErr)
      (cur2 : List DbRow) (n2 : Nat) (te2 : List TypeErr),
      insertRows t cols rows cur total te = .ok (cur2, n2, te2) →
      ∃ ex, cur2 = cur ++ ex ∧ ∀ x ∈ ex, x.map Prod.fst = cols := by
  intro rows
  induction rows with
  | nil =>
      intro cur total te cur2 n2 te2 h
      rw [insertRows] at h
      injection h with h
      injection h with h1 _
      exact ⟨[], by rw [← h1] ; simp, by simp⟩
  | cons row rest ih =>
      intro cur total te cur2 n2 te2 h
      rw [insertRows] at h
      split at h
      · exact ih cur total _ cur2 n2 te2 h
      · split at h
        · split at h
          · split at h
            · exact ih cur _ te cur2 n2 te2 h
            · rcases ih _ _ te cur2 n2 te2 h with ⟨ex, hex, hkeys⟩
              refine ⟨(cols.map (fun c => (c, (jsGet row c).getD JVal.null))) :: ex,
                by rw [hex] ; simp, ?_⟩
              intro x hx
              rcases List.mem_cons.mp hx with hx1 | hx2
              · rw [hx1, List.map_map]
                rw [show (Prod.fst ∘ fun c => (c, (jsGet row c).getD JVal.null)) = id from rfl,
                  List.map_id]
              · exact hkeys x hx2
          · split at h
            · exact absurd h (by simp)
            · rcases ih _ _ te cur2 n2 te2 h with ⟨ex, hex, hkeys⟩
              refine ⟨(cols.map (fun c => (c, (jsGet row c).getD JVal.null))) :: ex,
                by rw [hex] ; simp, ?_⟩
              intro x hx
              rcases List.mem_cons.mp hx with hx1 | hx2
              · rw [hx1, List.map_map]
                rw [show (Prod.fst ∘ fun c => (c, (jsGet row c).getD JVal.null)) = id from rfl,
                  List.map_id]
              · exact hkeys x hx2
        · exact absurd h (by simp)

/-- One insert-phase step only consults the snapshot through
`data.tables[table]` for that table's name. -/
theorem processTable_congr (tv1 tv2 : JVal) (st : Db × Nat × List TypeErr) (t : Tbl)
    (h : jsGet tv1 t.name = jsGet tv2 t.name) :
    processTable tv1 st t = processTable tv2 st t := by
  rw [processTable, processTable, h]

/-- The whole insert phase only consults the snapshot through the twelve
fixed collection names: collections under any other name are ignored
entirely. -/
theorem foldlM_processTable_congr (tv1 tv2 : JVal) :
    ∀ (ts : List Tbl) (st : Db × Nat × List TypeErr),
      (∀ u ∈ ts, jsGet tv1 u.name = jsGet tv2 u.name) →
      List.foldlM (processTable tv1) st ts = List.foldlM (processTable tv2) st ts := by
  intro ts
  induction ts with
  | nil => intro st _ ; rfl
  | cons u rest ih =>
      intro st hagree
      rw [List.foldlM_cons, List.foldlM_cons,
        processTable_congr tv1 tv2 st u (hagree u (List.mem_cons_self u rest))]
      rcases processTable tv2 st u with e | st1
      · rfl
      · show _ >>= _ = _ >>= _
        rw [show ((Except.ok st1 : Except String (Db × Nat × List TypeErr)) >>=
            fun st2 => List.foldlM (processTable tv1) st2 rest)
          = List.foldlM (processTable tv1) st1 rest from rfl]
        rw [show ((Except.ok st1 : Except String (Db × Nat × List TypeErr)) >>=
            fun st2 => List.foldlM (processTable tv2) st2 rest)
          = List.foldlM (processTable tv2) st1 rest from rfl]
        exact ih st1 (fun u2 hu2 => hagree u2 (List.mem_cons_of_mem u hu2))

/-- C6 (amended): the restored column set of a collection is computed once
per collection — the field names of the collection's first row
intersected with the static allowlist — and every inserted row carries
exactly those columns.  Hence a field name absent from the allowlist is
never inserted or interpolated into a query and raises no error, but an
allowlisted field of a later row that is missing from the first row is
silently dropped as well.  A collection with no allowlist entry is
skipped, and the insert phase reads the snapshot only at the twelve
fixed collection names, so snapshot collections under other names are
ignored entirely. -/
theorem claim_C6_amended (tablesVal : JVal) (st : Db × Nat × List TypeErr) (t : Tbl)
    (rows r0 : JVal) (allowed : List String) (db2 : Db) (n2 : Nat) (te2 : List TypeErr)
    (hrows : jsGet tablesVal t.name = some rows)
    (hr0 : jsIndex rows 0 = some r0)
    (hallow : ALLOWED_COLUMNS.lookup t.name = some allowed)
    (h : processTable tablesVal st t = .ok (db2, n2, te2)) :
    (∃ ex, db2.table t = st.1.table t ++ ex
      ∧ ∀ x ∈ ex, x.map Prod.fst = (jsKeys r0).filter (fun c => allowed.contains c)
      ∧ ∀ p ∈ x, p.1 ∈ allowed)
    ∧ (∀ tv2, (∀ u ∈ EXPORT_TBLS, jsGet tv2 u.name = jsGet tablesVal u.name) →
        ∀ db0, restoreBody db0 tv2 = restoreBody db0 tablesVal) := by
  constructor
  · simp only [processTable, hrows, hallow, hr0] at h
    split at h
    · injection h with h
      have hdb : st.1 = db2 := congrArg Prod.fst h
      exact ⟨[], by rw [← hdb] ; simp, by simp⟩
    · split at h
      · injection h with h
        have hdb : st.1 = db2 := congrArg Prod.fst h
        exact ⟨[], by rw [← hdb] ; simp, by simp⟩
      · split at h
        all_goals first
          | exact Except.noConfusion h
          | (rename_i v hvnull heq
             injection heq with heq
             subst heq
             split at h
             · injection h with h
               have hdb : st.1 = db2 := congrArg Prod.fst h
               exact ⟨[], by rw [← hdb] ; simp, by simp⟩
             · split at h
               · simp at h
               · split at h
                 · simp at h
                 · rename_i y hins
                   injection h with h
                   have hdb : st.1.setTable t y.1 = db2 := congrArg Prod.fst h
                   rcases insertRows_keys t _ _ _ _ _ _ _ _ hins with ⟨ex, hex, hkeys⟩
                   refine ⟨ex, ?_, ?_⟩
                   · rw [← hdb, table_setTable_same, hex]
                   · intro x hx
                     refine ⟨hkeys x hx, ?_⟩
                     intro p hp
                     have hpm : p.1 ∈ x.map Prod.fst := List.mem_map_of_mem Prod.fst hp
                     rw [hkeys x hx] at hpm
                     exact List.elem_iff.mp (List.mem_filter.mp hpm).2)
  · intro tv2 hagree db0
    rw [restoreBody, restoreBody]
    exact foldlM_processTable_congr tv2 tablesVal EXPORT_TBLS _ (fun u hu => hagree u hu)

/-- C6 amended witness: a concrete single-collection restore step — the
second row's extra field is dropped, inserted rows carry exactly the
first row's allowlisted columns. -/
theorem claim_C6_amended_witness :
    jsGet (JVal.obj [("budgets", JVal.arr
        [JVal.obj [("id", JVal.str "a")],
         JVal.obj [("id", JVal.str "b"), ("category", JVal.str "x")]])]) (Tbl.budgets).name
      = some (JVal.arr [JVal.obj [("id", JVal.str "a")],
          JVal.obj [("id", JVal.str "b"), ("category", JVal.str "x")]])
    ∧ ∃ ex, ((⟨[], [], [], [], [], [], [], [], [], [], [], [], [], true⟩ : Db).setTable
          .budgets [[("id", JVal.str "a")], [("id", JVal.str "b")]]).table .budgets
        = (⟨[], [], [], [], [], [], [], [], [], [], [], [], [], true⟩ : Db).table .budgets ++ ex
        ∧ ∀ x ∈ ex, x.map Prod.fst
            = (jsKeys (JVal.obj [("id", JVal.str "a")])).filter
                (fun c => (["id", "category", "default_amount", "created_at",
                  "updated_at"]).contains c)
        ∧ ∀ p ∈ x, p.1 ∈ ["id", "category", "default_amount", "created_at", "updated_at"] :=
  ⟨by decide,
    ((claim_C6_amended
      (JVal.obj [("budgets", JVal.arr
        [JVal.obj [("id", JVal.str "a")],
         JVal.obj [("id", JVal.str "b"), ("category", JVal.str "x")]])])
      (⟨[], [], [], [], [], [], [], [], [], [], [], [], [], true⟩, 0, [])
      .budgets
      (JVal.arr [JVal.obj [("id", JVal.str "a")],
        JVal.obj [("id", JVal.str "b"), ("category", JVal.str "x")]])
      (JVal.obj [("id", JVal.str "a")])
      ["id", "category", "default_amount", "created_at", "updated_at"]
      ((⟨[], [], [], [], [], [], [], [], [], [], [], [], [], true⟩ : Db).setTable
        .budgets [[("id", JVal.str "a")], [("id", JVal.str "b")]])
      2 [] (by decide) (by decide) (by decide) (by rfl)).1)⟩


/-- C7 counterexample: type validation only sees the columns restored for
the collection (the first row's field names intersected with the
allowlist).  Run A: the second budgets row carries the non-numeric value
`"oops"` in `default_amount` — a column configured as `number` — yet the
row is NOT skipped (it is inserted, minus the offending field), no
`typeErrors` entry is recorded, and `totalRows` counts it.  Run B:
restoring an `audit_log` row that duplicates an existing one inserts
nothing (`INSERT OR IGNORE`), yet `totalRows` still counts it — so
`totalRows` does not count only the inserted rows. -/
theorem claim_C7_counterexample :
    COLUMN_TYPES.lookup "default_amount" = some "number"
    ∧ validateRowValue "default_amount" (some (JVal.str "oops")) = false
    ∧ (runRestore ⟨[], [], [], [], [], [], [], [], [], [], [], [], [⟨"u1", "admin", "h"⟩], true⟩
        (JVal.obj [("version", JVal.num 1),
          ("tables", JVal.obj [("budgets", JVal.arr
            [JVal.obj [("id", JVal.str "a")],
             JVal.obj [("id", JVal.str "b"), ("default_amount", JVal.str "oops")]])]),
          ("password", JVal.str "pw")])
        "u1" (fun _ _ => true) "aid" "t1").2 = RestoreResp.success 2 []
    ∧ (runRestore ⟨[], [], [], [], [], [], [], [], [], [], [], [], [⟨"u1", "admin", "h"⟩], true⟩
        (JVal.obj [("version", JVal.num 1),
          ("tables", JVal.obj [("budgets", JVal.arr
            [JVal.obj [("id", JVal.str "a")],
             JVal.obj [("id", JVal.str "b"), ("default_amount", JVal.str "oops")]])]),
          ("password", JVal.str "pw")])
        "u1" (fun _ _ => true) "aid" "t1").1.table .budgets
      = [[("id", JVal.str "a")], [("id", JVal.str "b")]]
    ∧ (runRestore ⟨[], [], [], [], [], [], [], [], [], [], [],
          [[("id", JVal.str "x1")]], [⟨"u1", "admin", "h"⟩], true⟩
        (JVal.obj [("version", JVal.num 1),
          ("tables", JVal.obj [("audit_log", JVal.arr [JVal.obj [("id", JVal.str "x1")]])]),
          ("password", JVal.str "pw")])
        "u1" (fun _ _ => true) "aid" "t1").2 = RestoreResp.success 1 []
    ∧ List.count [("id", JVal.str "x1")]
        ((runRestore ⟨[], [], [], [], [], [], [], [], [], [], [],
            [[("id", JVal.str "x1")]], [⟨"u1", "admin", "h"⟩], true⟩
          (JVal.obj [("version", JVal.num 1),
            ("tables", JVal.obj [("audit_log", JVal.arr [JVal.obj [("id", JVal.str "x1")]])]),
            ("password", JVal.str "pw")])
          "u1" (fun _ _ => true) "aid" "t1").1.table .audit_log) = 1 := by
  refine ⟨by decide, by decide, by decide, by decide, by decide, by decide⟩

/-- Exact characterization of the per-row insert loop on a non-protected
table: rows whose RESTORED columns all validate are inserted (with
exactly those columns) and counted, rows with a violation in a restored
column are skipped with one `typeErrors` entry each, assuming the clean
rows bind and are collision-free. -/
theorem insertRows_clean (t : Tbl) (cols : List String) (hnp : isProtected t = false) :
    ∀ (rows : List JVal) (cur : List DbRow) (total : Nat) (te : List TypeErr),
      (∀ row ∈ rows,
          (cols.find? (fun c => !validateRowValue c (jsGet row c))).isNone = true →
          (cols.map (fun c => (c, (jsGet row c).getD JVal.null))).all
            (fun p => bindableVal p.2) = true) →
      (cur ++ (rows.filter (fun row =>
          (cols.find? (fun c => !validateRowValue c (jsGet row c))).isNone)).map
            (fun row => cols.map (fun c => (c, (jsGet row c).getD JVal.null)))).Pairwise
        (fun a b => pkCollides (a.lookup (pkOf t)) (b.lookup (pkOf t)) = false) →
      insertRows t cols rows cur total te
        = .ok (cur ++ (rows.filter (fun row =>
              (cols.find? (fun c => !validateRowValue c (jsGet row c))).isNone)).map
                (fun row => cols.map (fun c => (c, (jsGet row c).getD JVal.null))),
            total + (rows.filter (fun row =>
              (cols.find? (fun c => !validateRowValue c (jsGet row c))).isNone)).length,
            te ++ rows.filterMap (fun row =>
              (cols.find? (fun c => !validateRowValue c (jsGet row c))).map
                (fun c => (⟨t.name, c, (COLUMN_TYPES.lookup c).getD "",
                  typeofJVal (jsGet row c)⟩ : TypeErr)))) := by
  intro rows
  induction rows with
  | nil =>
      intro cur total te _ _
      rw [insertRows]
      simp
  | cons row rest ih =>
      intro cur total te hbind hfree
      rw [insertRows]
      rcases hfind : cols.find? (fun c => !validateRowValue c (jsGet row c)) with _ | c
      · simp only [hfind]
        have hb : (cols.map (fun c => (c, (jsGet row c).getD JVal.null))).all
            (fun p => bindableVal p.2) = true :=
          hbind row (List.mem_cons_self row rest) (by rw [hfind] ; rfl)
        rw [if_pos hb, hnp, if_neg Bool.false_ne_true]
        rw [List.filter_cons_of_pos (by rw [hfind] ; rfl)] at hfree
        rw [List.map_cons] at hfree
        rcases (List.pairwise_append.mp hfree) with ⟨h1, h2, h3⟩
        have hany : cur.any (fun r => pkCollides (r.lookup (pkOf t))
            ((cols.map (fun c => (c, (jsGet row c).getD JVal.null))).lookup (pkOf t))) = false := by
          rw [List.any_eq_false]
          intro r hr
          have hcoll := h3 r hr _ (List.mem_cons_self _ _)
          simp [hcoll]
        rw [if_neg (by simp [hany])]
        rw [List.filter_cons_of_pos (by rw [hfind] ; rfl),
          List.filterMap_cons_none (by rw [hfind] ; rfl)]
        have hfree2 : ((cur ++ [cols.map (fun c => (c, (jsGet row c).getD JVal.null))]) ++
            (rest.filter (fun row2 =>
              (cols.find? (fun c => !validateRowValue c (jsGet row2 c))).isNone)).map
                (fun row2 => cols.map (fun c => (c, (jsGet row2 c).getD JVal.null)))).Pairwise
            (fun a b => pkCollides (a.lookup (pkOf t)) (b.lookup (pkOf t)) = false) := by
          rw [List.append_assoc]
          exact hfree
        rw [ih (cur ++ [cols.map (fun c => (c, (jsGet row c).getD JVal.null))]) (total + 1) te
          (fun r hr hg => hbind r (List.mem_cons_of_mem row hr) hg) hfree2]
        simp only [Except.ok.injEq, Prod.mk.injEq]
        refine ⟨by simp, by simp only [List.length_cons] ; omega, trivial⟩
      · simp only [hfind]
        rw [List.filter_cons_of_neg (by simp [hfind])] at hfree
        have hfm : List.filterMap (fun row2 =>
              (List.find? (fun c2 => !validateRowValue c2 (jsGet row2 c2)) cols).map
                (fun c2 => (⟨t.name, c2, (COLUMN_TYPES.lookup c2).getD "",
                  typeofJVal (jsGet row2 c2)⟩ : TypeErr))) (row :: rest)
            = ⟨t.name, c, (COLUMN_TYPES.lookup c).getD "", typeofJVal (jsGet row c)⟩ ::
              List.filterMap (fun row2 =>
                (List.find? (fun c2 => !validateRowValue c2 (jsGet row2 c2)) cols).map
                  (fun c2 => (⟨t.name, c2, (COLUMN_TYPES.lookup c2).getD "",
                    typeofJVal (jsGet row2 c2)⟩ : TypeErr))) rest := by
          simp only [List.filterMap_cons, hfind]
          rfl
        rw [List.filter_cons_of_neg (by simp [hfind]), hfm]
        rw [ih cur total (te ++ [(⟨t.name, c, (COLUMN_TYPES.lookup c).getD "",
            typeofJVal (jsGet row c)⟩ : TypeErr)])
          (fun r hr hg => hbind r (List.mem_cons_of_mem row hr) hg) hfree]
        simp

/-- C7 (amended): type validation during restore checks only the RESTORED
columns (the first row\x27s field names intersected with the allowlist).
Within those columns the claimed behavior holds — a row with a
non-numeric value in a numeric restored column is skipped entirely, no
field of it is inserted, and one `typeErrors` entry records collection,
field, expected and actual type, while the other rows still commit — but
a violation in a column outside the restored set is neither skipped nor
reported, and `totalRows` counts every executed insert statement,
including `INSERT OR IGNORE` statements on protected rows that insert
nothing. -/
theorem claim_C7_amended :
    (∀ (t : Tbl) (cols : List String), isProtected t = false →
      ∀ (rows : List JVal) (cur : List DbRow) (total : Nat) (te : List TypeErr),
        (∀ row ∈ rows,
            (cols.find? (fun c => !validateRowValue c (jsGet row c))).isNone = true →
            (cols.map (fun c => (c, (jsGet row c).getD JVal.null))).all
              (fun p => bindableVal p.2) = true) →
        (cur ++ (rows.filter (fun row =>
            (cols.find? (fun c => !validateRowValue c (jsGet row c))).isNone)).map
              (fun row => cols.map (fun c => (c, (jsGet row c).getD JVal.null)))).Pairwise
          (fun a b => pkCollides (a.lookup (pkOf t)) (b.lookup (pkOf t)) = false) →
        insertRows t cols rows cur total te
          = .ok (cur ++ (rows.filter (fun row =>
                (cols.find? (fun c => !validateRowValue c (jsGet row c))).isNone)).map
                  (fun row => cols.map (fun c => (c, (jsGet row c).getD JVal.null))),
              total + (rows.filter (fun row =>
                (cols.find? (fun c => !validateRowValue c (jsGet row c))).isNone)).length,
              te ++ rows.filterMap (fun row =>
                (cols.find? (fun c => !validateRowValue c (jsGet row c))).map
                  (fun c => (⟨t.name, c, (COLUMN_TYPES.lookup c).getD "",
                    typeofJVal (jsGet row c)⟩ : TypeErr)))))
    ∧ (∀ (t : Tbl) (cols : List String) (row : JVal) (cur : List DbRow)
          (total : Nat) (te : List TypeErr),
        isProtected t = true →
        cols.find? (fun c => !validateRowValue c (jsGet row c)) = none →
        (cols.map (fun c => (c, (jsGet row c).getD JVal.null))).all
          (fun p => bindableVal p.2) = true →
        cur.any (fun r => pkCollides (r.lookup (pkOf t))
          ((cols.map (fun c => (c, (jsGet row c).getD JVal.null))).lookup (pkOf t))) = true →
        insertRows t cols [row] cur total te = .ok (cur, total + 1, te)) := by
  constructor
  · intro t cols hnp
    exact insertRows_clean t cols hnp
  · intro t cols row cur total te hp hfind hb hcoll
    rw [insertRows]
    simp only [hfind]
    rw [if_pos hb, if_pos hp, if_pos hcoll, insertRows]

/-- C7 amended witness: on the budgets table with both columns restored, a
row carrying `"oops"` in the numeric `default_amount` column is skipped
with one `typeErrors` entry while the clean row is inserted and counted;
on the protected `audit_log` table an `INSERT OR IGNORE` duplicate
inserts nothing yet is still counted. -/
theorem claim_C7_amended_witness :
    insertRows .budgets ["id", "default_amount"]
        [JVal.obj [("id", JVal.str "a"), ("default_amount", JVal.num 5)],
         JVal.obj [("id", JVal.str "b"), ("default_amount", JVal.str "oops")]]
        [] 0 []
      = .ok ([[("id", JVal.str "a"), ("default_amount", JVal.num 5)]], 1,
          [⟨"budgets", "default_amount", "number", "string"⟩])
    ∧ insertRows .audit_log ["id"] [JVal.obj [("id", JVal.str "x1")]]
        [[("id", JVal.str "x1")]] 5 []
      = .ok ([[("id", JVal.str "x1")]], 6, []) := by
  constructor
  · have h := claim_C7_amended.1 .budgets ["id", "default_amount"] (by decide)
      [JVal.obj [("id", JVal.str "a"), ("default_amount", JVal.num 5)],
       JVal.obj [("id", JVal.str "b"), ("default_amount", JVal.str "oops")]]
      [] 0 [] (by decide) (by decide)
    exact h.trans (by rfl)
  · exact claim_C7_amended.2 .audit_log ["id"] (JVal.obj [("id", JVal.str "x1")])
      [[("id", JVal.str "x1")]] 5 [] (by decide) (by decide) (by decide) (by decide)

/-- Writing back the current contents of a table is a no-op. -/
theorem setTable_table_self (db : Db) (t : Tbl) : db.setTable t (db.table t) = db := by
  cases t <;> rfl

/-- Toggling the `foreign_keys` pragma does not change any table. -/
theorem table_setFK (db : Db) (b : Bool) (t : Tbl) :
    ({ db with foreignKeys := b }).table t = db.table t := by
  cases t <;> rfl

/-- Every table of the enumeration is exported. -/
theorem tbl_mem_export (t : Tbl) : t ∈ EXPORT_TBLS := by
  cases t <;> decide

/-- The only protected table is the ledger. -/
theorem tbl_protected_eq (t : Tbl) (h : isProtected t = true) : t = .audit_log := by
  cases t <;> first | rfl | exact absurd h (by decide)

/-- Every table of the enumeration has an allowlist entry. -/
theorem allowed_lookup_ex (t : Tbl) : ∃ al, ALLOWED_COLUMNS.lookup t.name = some al := by
  cases t <;> exact ⟨_, rfl⟩

/-- Reading the export document at a fixed collection name returns that
table, as a JSON array of its rows. -/
theorem export_lookup (db : Db) (t : Tbl) :
    jsGet (JVal.obj (EXPORT_TBLS.map (fun t2 => (t2.name,
        JVal.arr ((db.table t2).map JVal.obj))))) t.name
      = some (JVal.arr ((db.table t).map JVal.obj)) := by
  cases t <;> rfl

/-- A key occurring in an association list has a lookup value that is one
of its pairs. -/
theorem lookup_mem_of_key : ∀ (r : List (String × JVal)) (c : String),
    c ∈ r.map Prod.fst → ∃ v, List.lookup c r = some v ∧ (c, v) ∈ r := by
  intro r
  induction r with
  | nil => intro c hc ; simp at hc
  | cons p rest ih =>
      intro c hc
      rcases p with ⟨k, v⟩
      by_cases hck : c = k
      · subst hck
        refine ⟨v, ?_, List.mem_cons_self _ _⟩
        simp [List.lookup]
      · rw [List.map_cons] at hc
        rcases List.mem_cons.mp hc with h1 | h2
        · exact absurd h1 hck
        · obtain ⟨w, hw, hmem⟩ := ih c h2
          refine ⟨w, ?_, List.mem_cons_of_mem _ hmem⟩
          rw [show List.lookup c ((k, v) :: rest) = List.lookup c rest from by
            simp [List.lookup, beq_eq_false_iff_ne.mpr hck]]
          exact hw

/-- Rebuilding an association list with unique keys from property reads of
its object gives back the list itself. -/
theorem reconstruct_assoc : ∀ (r : List (String × JVal)), (r.map Prod.fst).Nodup →
    (r.map Prod.fst).map (fun c => (c, (jsGet (JVal.obj r) c).getD JVal.null)) = r := by
  intro r
  induction r with
  | nil => intro _ ; rfl
  | cons p rest ih =>
      intro hnd
      rcases p with ⟨k, v⟩
      rw [List.map_cons] at hnd
      have hknotin : k ∉ rest.map Prod.fst := (List.nodup_cons.mp hnd).1
      have hnd2 : (rest.map Prod.fst).Nodup := (List.nodup_cons.mp hnd).2
      rw [List.map_cons, List.map_cons]
      congr 1
      · rw [show jsGet (JVal.obj ((k, v) :: rest)) k = some v from by simp [jsGet, List.lookup]]
        rfl
      · rw [show (rest.map Prod.fst).map
              (fun c => (c, (jsGet (JVal.obj ((k, v) :: rest)) c).getD JVal.null))
            = (rest.map Prod.fst).map
              (fun c => (c, (jsGet (JVal.obj rest) c).getD JVal.null)) from
            List.map_congr_left (fun c hc => by
              have hck : c ≠ k := fun h => hknotin (by rw [← h] ; exact hc)
              rw [show jsGet (JVal.obj ((k, v) :: rest)) c = jsGet (JVal.obj rest) c from by
                simp only [jsGet, List.lookup, beq_eq_false_iff_ne.mpr hck]])]
        exact ih hnd2

/-- Unpacking `TableWF` on a non-empty table. -/
theorem tableWF_cons (t : Tbl) (r0 : DbRow) (rest : List DbRow)
    (hwf : TableWF t (r0 :: rest) = true) :
    r0.map Prod.fst ≠ []
    ∧ (∀ r ∈ r0 :: rest, r.map Prod.fst = r0.map Prod.fst)
    ∧ (r0.map Prod.fst).Nodup
    ∧ (∀ c ∈ r0.map Prod.fst, ((ALLOWED_COLUMNS.lookup t.name).getD []).contains c = true)
    ∧ (∀ r ∈ r0 :: rest, ∀ p ∈ r,
        bindableVal p.2 = true ∧ validateRowValue p.1 (some p.2) = true)
    ∧ (r0 :: rest).Pairwise (fun a b =>
        pkCollides (a.lookup (pkOf t)) (b.lookup (pkOf t)) = false) := by
  simp only [TableWF, Bool.and_eq_true, List.all_eq_true, decide_eq_true_eq] at hwf
  obtain ⟨⟨⟨⟨⟨h1, h2⟩, h3⟩, h4⟩, h5⟩, h6⟩ := hwf
  refine ⟨?_, ?_, h3, ?_, ?_, h6⟩
  · intro h
    rw [h] at h1
    simp at h1
  · intro r hr
    exact eq_of_beq (h2 r hr)
  · intro c hc
    exact h4 c hc
  · intro r hr p hp
    exact h5 r hr p hp

/-- Under the well-formedness condition, no restored column of any row
fails validation. -/
theorem wf_find_none (r0 : DbRow) (rows : List DbRow)
    (hkeys : ∀ r ∈ rows, r.map Prod.fst = r0.map Prod.fst)
    (hvals : ∀ r ∈ rows, ∀ p ∈ r,
        bindableVal p.2 = true ∧ validateRowValue p.1 (some p.2) = true) :
    ∀ row ∈ rows.map JVal.obj,
      (r0.map Prod.fst).find? (fun c => !validateRowValue c (jsGet row c)) = none := by
  intro row hrow
  rcases List.mem_map.mp hrow with ⟨r, hr, rfl⟩
  apply List.find?_eq_none.mpr
  intro c hc
  rw [← hkeys r hr] at hc
  obtain ⟨v, hv, hmem⟩ := lookup_mem_of_key r c hc
  have hval := (hvals r hr (c, v) hmem).2
  simp [jsGet, hv, hval]

/-- Under the well-formedness condition, every restored row binds. -/
theorem wf_bind_ok (r0 : DbRow) (rows : List DbRow)
    (hnd : (r0.map Prod.fst).Nodup)
    (hkeys : ∀ r ∈ rows, r.map Prod.fst = r0.map Prod.fst)
    (hvals : ∀ r ∈ rows, ∀ p ∈ r,
        bindableVal p.2 = true ∧ validateRowValue p.1 (some p.2) = true) :
    ∀ row ∈ rows.map JVal.obj,
      ((r0.map Prod.fst).map (fun c => (c, (jsGet row c).getD JVal.null))).all
        (fun p => bindableVal p.2) = true := by
  intro row hrow
  rcases List.mem_map.mp hrow with ⟨r, hr, rfl⟩
  rw [show (r0.map Prod.fst).map (fun c => (c, (jsGet (JVal.obj r) c).getD JVal.null)) = r from by
    rw [← hkeys r hr]
    exact reconstruct_assoc r (by rw [hkeys r hr] ; exact hnd)]
  exact List.all_eq_true.mpr (fun p hp => (hvals r hr p hp).1)

/-- On a well-formed snapshot of a non-protected table starting from an
empty table, the insert loop reinstates exactly the snapshot rows. -/
theorem insertRows_of_WF (t : Tbl) (r0 : DbRow) (rows : List DbRow)
    (hnp : isProtected t = false)
    (hkeys : ∀ r ∈ rows, r.map Prod.fst = r0.map Prod.fst)
    (hnd : (r0.map Prod.fst).Nodup)
    (hvals : ∀ r ∈ rows, ∀ p ∈ r,
        bindableVal p.2 = true ∧ validateRowValue p.1 (some p.2) = true)
    (hpw : rows.Pairwise (fun a b =>
        pkCollides (a.lookup (pkOf t)) (b.lookup (pkOf t)) = false))
    (n : Nat) (te : List TypeErr) :
    insertRows t (r0.map Prod.fst) (rows.map JVal.obj) [] n te
      = .ok (rows, n + rows.length, te) := by
  have hrecon : ∀ r ∈ rows,
      (r0.map Prod.fst).map (fun c => (c, (jsGet (JVal.obj r) c).getD JVal.null)) = r := by
    intro r hr
    rw [← hkeys r hr]
    exact reconstruct_assoc r (by rw [hkeys r hr] ; exact hnd)
  have hfilter : (rows.map JVal.obj).filter (fun row =>
      ((r0.map Prod.fst).find? (fun c => !validateRowValue c (jsGet row c))).isNone)
      = rows.map JVal.obj := by
    apply List.filter_eq_self.mpr
    intro row hrow
    rw [wf_find_none r0 rows hkeys hvals row hrow]
    rfl
  have hmapped : ((rows.map JVal.obj).map (fun row =>
      (r0.map Prod.fst).map (fun c => (c, (jsGet row c).getD JVal.null)))) = rows := by
    rw [List.map_map]
    rw [show rows.map ((fun row => (r0.map Prod.fst).map
        (fun c => (c, (jsGet row c).getD JVal.null))) ∘ JVal.obj) = rows.map id from
      List.map_congr_left (fun r hr => hrecon r hr)]
    exact List.map_id rows
  have hfm : (rows.map JVal.obj).filterMap (fun row =>
      ((r0.map Prod.fst).find? (fun c => !validateRowValue c (jsGet row c))).map
        (fun c => (⟨t.name, c, (COLUMN_TYPES.lookup c).getD "",
          typeofJVal (jsGet row c)⟩ : TypeErr))) = [] := by
    apply List.filterMap_eq_nil_iff.mpr
    intro row hrow
    rw [wf_find_none r0 rows hkeys hvals row hrow]
    rfl
  have hfree : (([] : List DbRow) ++ ((rows.map JVal.obj).filter (fun row =>
      ((r0.map Prod.fst).find? (fun c => !validateRowValue c (jsGet row c))).isNone)).map
        (fun row => (r0.map Prod.fst).map (fun c => (c, (jsGet row c).getD JVal.null)))).Pairwise
      (fun a b => pkCollides (a.lookup (pkOf t)) (b.lookup (pkOf t)) = false) := by
    rw [hfilter, hmapped]
    simpa using hpw
  rw [insertRows_clean t (r0.map Prod.fst) hnp (rows.map JVal.obj) [] n te
    (fun row hrow _ => wf_bind_ok r0 rows hnd hkeys hvals row hrow) hfree]
  rw [hfilter, hmapped, hfm]
  simp

/-- On rows that validate and bind, the insert loop on the protected
ledger never fails, never records a type error, and only appends. -/
theorem insertRows_protected_ok (cols : List String) :
    ∀ (rows : List JVal) (cur : List DbRow) (n : Nat) (te : List TypeErr),
      (∀ row ∈ rows, cols.find? (fun c => !validateRowValue c (jsGet row c)) = none) →
      (∀ row ∈ rows, (cols.map (fun c => (c, (jsGet row c).getD JVal.null))).all
          (fun p => bindableVal p.2) = true) →
      ∃ ex n2, insertRows .audit_log cols rows cur n te = .ok (cur ++ ex, n2, te) := by
  intro rows
  induction rows with
  | nil =>
      intro cur n te _ _
      exact ⟨[], n, by rw [insertRows] ; simp⟩
  | cons row rest ih =>
      intro cur n te hfind hbind
      rw [insertRows]
      simp only [hfind row (List.mem_cons_self row rest)]
      rw [if_pos (hbind row (List.mem_cons_self row rest))]
      rw [if_pos (show isProtected Tbl.audit_log = true from rfl)]
      cases hcoll : cur.any (fun r => pkCollides (r.lookup (pkOf Tbl.audit_log))
          ((cols.map (fun c => (c, (jsGet row c).getD JVal.null))).lookup
            (pkOf Tbl.audit_log))) with
      | true =>
          rw [if_pos rfl]
          exact ih cur (n + 1) te (fun r hr => hfind r (List.mem_cons_of_mem _ hr))
            (fun r hr => hbind r (List.mem_cons_of_mem _ hr))
      | false =>
          rw [if_neg Bool.false_ne_true]
          obtain ⟨ex, n2, hih⟩ := ih
            (cur ++ [cols.map (fun c => (c, (jsGet row c).getD JVal.null))]) (n + 1) te
            (fun r hr => hfind r (List.mem_cons_of_mem _ hr))
            (fun r hr => hbind r (List.mem_cons_of_mem _ hr))
          refine ⟨cols.map (fun c => (c, (jsGet row c).getD JVal.null)) :: ex, n2, ?_⟩
          rw [hih, List.append_assoc]
          rfl

/-- One insert-phase step on a well-formed non-protected snapshot table
reinstates exactly the snapshot rows into the (cleared) table. -/
theorem processTable_roundtrip (tablesVal : JVal) (t : Tbl) (rows : List DbRow)
    (hnp : isProtected t = false) (hwf : TableWF t rows = true)
    (hlook : jsGet tablesVal t.name = some (JVal.arr (rows.map JVal.obj))) :
    ∀ (d : Db) (n : Nat) (te : List TypeErr), d.table t = [] →
      processTable tablesVal (d, n, te) t
        = .ok (d.setTable t rows, n + rows.length, te) := by
  intro d n te hd
  rw [processTable]
  simp only [hlook]
  cases rows with
  | nil =>
      rw [if_neg (by simp [jsTruthy]), if_pos (by decide)]
      rw [show d.setTable t ([] : List DbRow) = d from by
        rw [← hd] ; exact setTable_table_self d t]
      rfl
  | cons r0 rest =>
      obtain ⟨hne, hkeys, hnd, hallow, hvals, hpw⟩ := tableWF_cons t r0 rest hwf
      obtain ⟨al, hal⟩ := allowed_lookup_ex t
      rw [if_neg (by simp [jsTruthy])]
      rw [if_neg (by simp [jsLength] ; omega)]
      simp only [hal]
      have hidx : jsIndex (JVal.arr ((r0 :: rest).map JVal.obj)) 0 = some (JVal.obj r0) := rfl
      simp only [hidx]
      have hcols : (jsKeys (JVal.obj r0)).filter (fun c => al.contains c)
          = r0.map Prod.fst := by
        rw [show jsKeys (JVal.obj r0) = r0.map Prod.fst from rfl]
        apply List.filter_eq_self.mpr
        intro c hc
        have h := hallow c hc
        rw [hal] at h
        simpa using h
      rw [hcols]
      rw [if_neg (by rw [List.length_eq_zero] ; exact hne)]
      simp only [iterElems]
      rw [show ((d, n, te) : Db × Nat × List TypeErr).1.table t = ([] : List DbRow) from hd]
      rw [insertRows_of_WF t r0 (r0 :: rest) hnp hkeys hnd hvals hpw n te]

/-- One insert-phase step on a well-formed snapshot of the protected
ledger succeeds, preserves the type-error report, and only appends. -/
theorem processTable_protected_ok (tablesVal : JVal) (rows : List DbRow)
    (hwf : TableWF .audit_log rows = true)
    (hlook : jsGet tablesVal (Tbl.audit_log).name = some (JVal.arr (rows.map JVal.obj))) :
    ∀ (d : Db) (n : Nat) (te : List TypeErr),
      ∃ ex n2, processTable tablesVal (d, n, te) .audit_log
        = .ok (d.setTable .audit_log (d.table .audit_log ++ ex), n2, te) := by
  intro d n te
  rw [processTable]
  simp only [hlook]
  cases rows with
  | nil =>
      refine ⟨[], n, ?_⟩
      rw [if_neg (by simp [jsTruthy]), if_pos (by decide)]
      rw [List.append_nil, setTable_table_self]
  | cons r0 rest =>
      obtain ⟨hne, hkeys, hnd, hallow, hvals, _⟩ := tableWF_cons .audit_log r0 rest hwf
      obtain ⟨al, hal⟩ := allowed_lookup_ex .audit_log
      rw [if_neg (by simp [jsTruthy])]
      rw [if_neg (by simp [jsLength] ; omega)]
      simp only [hal]
      have hidx : jsIndex (JVal.arr ((r0 :: rest).map JVal.obj)) 0 = some (JVal.obj r0) := rfl
      simp only [hidx]
      have hcols : (jsKeys (JVal.obj r0)).filter (fun c => al.contains c)
          = r0.map Prod.fst := by
        rw [show jsKeys (JVal.obj r0) = r0.map Prod.fst from rfl]
        apply List.filter_eq_self.mpr
        intro c hc
        have h := hallow c hc
        rw [hal] at h
        simpa using h
      rw [hcols]
      rw [if_neg (by rw [List.length_eq_zero] ; exact hne)]
      simp only [iterElems]
      obtain ⟨ex, n2, hins⟩ := insertRows_protected_ok (r0.map Prod.fst)
        ((r0 :: rest).map JVal.obj) (d.table .audit_log) n te
        (wf_find_none r0 (r0 :: rest) hkeys hvals)
        (wf_bind_ok r0 (r0 :: rest) hnd hkeys hvals)
      refine ⟨ex, n2, ?_⟩
      rw [show ((d, n, te) : Db × Nat × List TypeErr).1.table Tbl.audit_log
          = d.table Tbl.audit_log from rfl]
      rw [hins]

/-- Folding the insert phase over a duplicate-free table list, when every
non-protected step reinstates its target table from an empty table and
the ledger step only appends: the fold succeeds with the type-error
report unchanged, reinstates every listed non-protected table, leaves
unlisted non-protected tables alone, only appends to the ledger and
never touches `users`. -/
theorem foldlM_roundtrip (tablesVal : JVal) (target : Tbl → List DbRow)
    (hstep : ∀ t, isProtected t = false →
      ∀ (d : Db) (n : Nat) (te : List TypeErr), d.table t = [] →
        processTable tablesVal (d, n, te) t
          = .ok (d.setTable t (target t), n + (target t).length, te))
    (hstepP : ∀ (d : Db) (n : Nat) (te : List TypeErr),
      ∃ ex n2, processTable tablesVal (d, n, te) .audit_log
        = .ok (d.setTable .audit_log (d.table .audit_log ++ ex), n2, te)) :
    ∀ (ts : List Tbl), ts.Nodup →
    ∀ (d : Db) (n : Nat) (te : List TypeErr),
      (∀ t ∈ ts, isProtected t = false → d.table t = []) →
      ∃ d4 n4, List.foldlM (processTable tablesVal) (d, n, te) ts = .ok (d4, n4, te)
        ∧ (∀ t ∈ ts, isProtected t = false → d4.table t = target t)
        ∧ (∀ t, isProtected t = false → t ∉ ts → d4.table t = d.table t)
        ∧ (∃ ex, d4.table .audit_log = d.table .audit_log ++ ex)
        ∧ d4.users = d.users := by
  intro ts
  induction ts with
  | nil =>
      intro _ d n te _
      exact ⟨d, n, rfl, by simp, fun t _ _ => rfl, ⟨[], by simp⟩, rfl⟩
  | cons u us ih =>
      intro hnodup d n te hempty
      by_cases hpu : isProtected u = true
      · have hu := tbl_protected_eq u hpu
        subst hu
        obtain ⟨ex0, n20, hstep0⟩ := hstepP d n te
        have hempty2 : ∀ t ∈ us, isProtected t = false →
            (d.setTable .audit_log (d.table .audit_log ++ ex0)).table t = [] := by
          intro t ht hprot
          rw [table_setTable_ne _ _ _ _ (fun he => by
            rw [← he] at hprot ; exact absurd hprot (by decide))]
          exact hempty t (List.mem_cons_of_mem _ ht) hprot
        obtain ⟨d4, n4, hfold, hin, hout, ⟨ex1, haud⟩, husers⟩ :=
          ih (List.nodup_cons.mp hnodup).2
            (d.setTable .audit_log (d.table .audit_log ++ ex0)) n20 te hempty2
        refine ⟨d4, n4, ?_, ?_, ?_, ?_, ?_⟩
        · rw [List.foldlM_cons, hstep0]
          exact hfold
        · intro t ht hprot
          rcases List.mem_cons.mp ht with h1 | h2
          · rw [h1] at hprot
            exact absurd hprot (by decide)
          · exact hin t h2 hprot
        · intro t hprot htn
          rw [hout t hprot (fun h => htn (List.mem_cons_of_mem _ h)),
            table_setTable_ne _ _ _ _ (fun he => by
              rw [← he] at hprot ; exact absurd hprot (by decide))]
        · refine ⟨ex0 ++ ex1, ?_⟩
          rw [haud, table_setTable_same, List.append_assoc]
        · rw [husers, setTable_users]
      · have hpu2 : isProtected u = false := by
          revert hpu
          cases isProtected u <;> simp
        have hstepu := hstep u hpu2 d n te (hempty u (List.mem_cons_self u us) hpu2)
        have hune : u ≠ .audit_log := fun he => by
          rw [he] at hpu2 ; exact absurd hpu2 (by decide)
        have hempty2 : ∀ t ∈ us, isProtected t = false →
            (d.setTable u (target u)).table t = [] := by
          intro t ht hprot
          rw [table_setTable_ne _ _ _ _ (fun he =>
            (List.nodup_cons.mp hnodup).1 (by rw [he] ; exact ht))]
          exact hempty t (List.mem_cons_of_mem _ ht) hprot
        obtain ⟨d4, n4, hfold, hin, hout, ⟨ex1, haud⟩, husers⟩ :=
          ih (List.nodup_cons.mp hnodup).2 (d.setTable u (target u))
            (n + (target u).length) te hempty2
        refine ⟨d4, n4, ?_, ?_, ?_, ?_, ?_⟩
        · rw [List.foldlM_cons, hstepu]
          exact hfold
        · intro t ht hprot
          rcases List.mem_cons.mp ht with h1 | h2
          · rw [h1]
            rw [hout u hpu2 (List.nodup_cons.mp hnodup).1, table_setTable_same]
          · exact hin t h2 hprot
        · intro t hprot htn
          rw [hout t hprot (fun h => htn (List.mem_cons_of_mem _ h)),
            table_setTable_ne _ _ _ _ (fun he =>
              htn (by rw [← he] ; exact List.mem_cons_self u us))]
        · refine ⟨ex1, ?_⟩
          rw [haud, table_setTable_ne _ _ _ _ hune]
        · rw [husers, setTable_users]

/-- The restore route on the happy path: all pre-checks pass, the caller
re-authenticates, the transaction commits — the response reports its
totals and the `restore_backup` ledger entry is appended. -/
theorem runRestore_success (db0 : Db) (data : JVal) (reqUserId : String)
    (bcryptCompare : JVal → String → Bool) (auditId now : String)
    (tj pwv : JVal) (user : UserRow) (db4 : Db) (n4 : Nat) (te4 : List TypeErr)
    (h1 : jsTruthy data = true)
    (h2 : jsGet data "tables" = some tj) (h3 : jsTruthy tj = true)
    (h4 : jsGet data "version" = some (JVal.num 1))
    (h5 : jsGet data "password" = some pwv) (h6 : jsTruthy pwv = true)
    (h7 : db0.users.find? (fun u => u.id == reqUserId) = some user)
    (h8 : bcryptCompare pwv user.password_hash = true)
    (h9 : restoreTransaction db0 tj = (db4, .ok (n4, te4))) :
    runRestore db0 data reqUserId bcryptCompare auditId now
      = (appendAudit db4 (mkAuditRow auditId "restore_backup" "system" none
          (JVal.obj [("source_exported_at", (jsGet data "exported_at").getD .null),
            ("tables_restored", .num (jsKeys ((jsGet data "tables").getD .null)).length),
            ("total_rows", .num n4), ("type_errors", .num te4.length)])
          "owner" now), .success n4 te4) := by
  rw [runRestore]
  rw [if_neg (by simp [h1, h2, h4, jsTruthyOpt, h3,
    show jsTruthy (JVal.num 1) = true from rfl])]
  rw [if_neg (by simp [h4])]
  rw [if_neg (by simp [h5, jsTruthyOpt, h6])]
  simp only [h7]
  rw [if_neg (by simp [h5, Option.getD_some, h8])]
  simp only [h2, Option.getD_some, h9]

/-- Appending a ledger row leaves every other table unchanged. -/
theorem table_appendAudit_ne (db : Db) (r : DbRow) (t : Tbl) (h : t ≠ .audit_log) :
    (appendAudit db r).table t = db.table t := by
  rw [appendAudit, table_setTable_ne _ _ _ _ (Ne.symm h)]

/-- Appending a ledger row appends it to the ledger table. -/
theorem table_appendAudit (db : Db) (r : DbRow) :
    (appendAudit db r).table .audit_log = db.table .audit_log ++ [r] := by
  rw [appendAudit, table_setTable_same]

/-- C4: for every well-formed data set, feeding the export document (with
the password confirmation field added) straight back into restore
reinstates every non-protected collection to exactly its exported rows,
only appends to the protected ledger, and answers with the success
response. -/
theorem claim_C4 (db : Db) (auditId now pw reqUserId auditId2 now2 : String)
    (bcryptCompare : JVal → String → Bool) (user : UserRow)
    (hfind : db.users.find? (fun u => u.id == reqUserId) = some user)
    (hbc : bcryptCompare (JVal.str pw) user.password_hash = true)
    (hpw : pw ≠ "")
    (hwf : ∀ t, TableWF t (db.table t) = true) :
    (exportBackup db auditId now).2
      = JVal.obj [("version", JVal.num 1), ("exported_at", JVal.str now),
          ("tables", JVal.obj (EXPORT_TBLS.map (fun t2 => (t2.name,
            JVal.arr ((db.table t2).map JVal.obj)))))]
    ∧ ∃ extra n4,
      (∀ t, isProtected t = false →
        (runRestore (exportBackup db auditId now).1
          (JVal.obj [("version", JVal.num 1), ("exported_at", JVal.str now),
            ("tables", JVal.obj (EXPORT_TBLS.map (fun t2 => (t2.name,
              JVal.arr ((db.table t2).map JVal.obj))))),
            ("password", JVal.str pw)])
          reqUserId bcryptCompare auditId2 now2).1.table t = db.table t)
      ∧ (runRestore (exportBackup db auditId now).1
          (JVal.obj [("version", JVal.num 1), ("exported_at", JVal.str now),
            ("tables", JVal.obj (EXPORT_TBLS.map (fun t2 => (t2.name,
              JVal.arr ((db.table t2).map JVal.obj))))),
            ("password", JVal.str pw)])
          reqUserId bcryptCompare auditId2 now2).1.table .audit_log
        = (exportBackup db auditId now).1.table .audit_log ++ extra
      ∧ (runRestore (exportBackup db auditId now).1
          (JVal.obj [("version", JVal.num 1), ("exported_at", JVal.str now),
            ("tables", JVal.obj (EXPORT_TBLS.map (fun t2 => (t2.name,
              JVal.arr ((db.table t2).map JVal.obj))))),
            ("password", JVal.str pw)])
          reqUserId bcryptCompare auditId2 now2).2 = RestoreResp.success n4 [] := by
  refine ⟨rfl, ?_⟩
  set TJ := JVal.obj (EXPORT_TBLS.map (fun t2 => (t2.name,
    JVal.arr ((db.table t2).map JVal.obj)))) with hTJ
  set D := JVal.obj [("version", JVal.num 1), ("exported_at", JVal.str now),
    ("tables", TJ), ("password", JVal.str pw)] with hD
  have husers : (exportBackup db auditId now).1.users = db.users :=
    setTable_users db .audit_log _
  obtain ⟨d4, n4, hfold, hin, hout, ⟨ex, haud⟩, husers4⟩ :=
    foldlM_roundtrip TJ db.table
      (fun t hnp d n te hd =>
        processTable_roundtrip TJ t (db.table t) hnp (hwf t) (export_lookup db t) d n te hd)
      (fun d n te =>
        processTable_protected_ok TJ (db.table .audit_log) (hwf .audit_log)
          (export_lookup db .audit_log) d n te)
      EXPORT_TBLS (by decide)
      (clearTables { (exportBackup db auditId now).1 with foreignKeys := false }) 0 []
      (fun t _ hnp => by rw [clearTables_table, if_neg (by simp [hnp])])
  have htrans : restoreTransaction (exportBackup db auditId now).1 TJ
      = ({ d4 with foreignKeys := true }, .ok (n4, [])) := by
    rw [restoreTransaction]
    rw [show restoreBody { (exportBackup db auditId now).1 with foreignKeys := false } TJ
        = .ok (d4, n4, ([] : List TypeErr)) from by rw [restoreBody] ; exact hfold]
  have hrun := runRestore_success (exportBackup db auditId now).1 D reqUserId bcryptCompare
    auditId2 now2 TJ (JVal.str pw) user ({ d4 with foreignKeys := true }) n4 []
    (by rw [hD] ; rfl) (by rw [hD] ; rfl) (by rw [hTJ] ; rfl) (by rw [hD] ; rfl)
    (by rw [hD] ; rfl)
    (by simp [jsTruthy, hpw])
    (by rw [husers] ; exact hfind) hbc htrans
  refine ⟨ex ++ [mkAuditRow auditId2 "restore_backup" "system" none
      (JVal.obj [("source_exported_at", (jsGet D "exported_at").getD .null),
        ("tables_restored", .num (jsKeys ((jsGet D "tables").getD .null)).length),
        ("total_rows", .num n4), ("type_errors", .num (List.length ([] : List TypeErr)))])
      "owner" now2], n4, ?_, ?_, ?_⟩
  · intro t hnp
    simp only [hrun]
    rw [table_appendAudit_ne _ _ t (fun he => by
      rw [he] at hnp ; exact absurd hnp (by decide))]
    rw [table_setFK]
    exact hin t (tbl_mem_export t) hnp
  · simp only [hrun]
    rw [table_appendAudit, table_setFK, haud, clearTables_audit, table_setFK,
      List.append_assoc]
  · simp only [hrun]

/-- C4 witness: a concrete store with one budgets row, one ledger row and
one admin user — restoring its own export reinstates the budgets table
exactly, only appends to the ledger, and reports success. -/
theorem claim_C4_witness :
    (exportBackup (⟨[], [], [[("id", JVal.str "b1"), ("category", JVal.str "general"), ("default_amount", JVal.num 50)]], [], [], [], [], [], [], [], [], [[("id", JVal.str "a1"), ("action", JVal.str "restore_test")]], [⟨"u1", "admin", "h"⟩], true⟩ : Db) "aid" "t1").2
      = JVal.obj [("version", JVal.num 1), ("exported_at", JVal.str "t1"),
          ("tables", JVal.obj (EXPORT_TBLS.map (fun t2 => (t2.name,
            JVal.arr (((⟨[], [], [[("id", JVal.str "b1"), ("category", JVal.str "general"), ("default_amount", JVal.num 50)]], [], [], [], [], [], [], [], [], [[("id", JVal.str "a1"), ("action", JVal.str "restore_test")]], [⟨"u1", "admin", "h"⟩], true⟩ : Db).table t2).map JVal.obj)))))]
    ∧ ∃ extra n4,
      (∀ t, isProtected t = false →
        (runRestore (exportBackup (⟨[], [], [[("id", JVal.str "b1"), ("category", JVal.str "general"), ("default_amount", JVal.num 50)]], [], [], [], [], [], [], [], [], [[("id", JVal.str "a1"), ("action", JVal.str "restore_test")]], [⟨"u1", "admin", "h"⟩], true⟩ : Db) "aid" "t1").1
          (JVal.obj [("version", JVal.num 1), ("exported_at", JVal.str "t1"),
            ("tables", JVal.obj (EXPORT_TBLS.map (fun t2 => (t2.name,
              JVal.arr (((⟨[], [], [[("id", JVal.str "b1"), ("category", JVal.str "general"), ("default_amount", JVal.num 50)]], [], [], [], [], [], [], [], [], [[("id", JVal.str "a1"), ("action", JVal.str "restore_test")]], [⟨"u1", "admin", "h"⟩], true⟩ : Db).table t2).map JVal.obj))))),
            ("password", JVal.str "pw")])
          "u1" (fun _ _ => true) "aid2" "t2").1.table t = (⟨[], [], [[("id", JVal.str "b1"), ("category", JVal.str "general"), ("default_amount", JVal.num 50)]], [], [], [], [], [], [], [], [], [[("id", JVal.str "a1"), ("action", JVal.str "restore_test")]], [⟨"u1", "admin", "h"⟩], true⟩ : Db).table t)
      ∧ (runRestore (exportBackup (⟨[], [], [[("id", JVal.str "b1"), ("category", JVal.str "general"), ("default_amount", JVal.num 50)]], [], [], [], [], [], [], [], [], [[("id", JVal.str "a1"), ("action", JVal.str "restore_test")]], [⟨"u1", "admin", "h"⟩], true⟩ : Db) "aid" "t1").1
          (JVal.obj [("version", JVal.num 1), ("exported_at", JVal.str "t1"),
            ("tables", JVal.obj (EXPORT_TBLS.map (fun t2 => (t2.name,
              JVal.arr (((⟨[], [], [[("id", JVal.str "b1"), ("category", JVal.str "general"), ("default_amount", JVal.num 50)]], [], [], [], [], [], [], [], [], [[("id", JVal.str "a1"), ("action", JVal.str "restore_test")]], [⟨"u1", "admin", "h"⟩], true⟩ : Db).table t2).map JVal.obj))))),
            ("password", JVal.str "pw")])
          "u1" (fun _ _ => true) "aid2" "t2").1.table .audit_log
        = (exportBackup (⟨[], [], [[("id", JVal.str "b1"), ("category", JVal.str "general"), ("default_amount", JVal.num 50)]], [], [], [], [], [], [], [], [], [[("id", JVal.str "a1"), ("action", JVal.str "restore_test")]], [⟨"u1", "admin", "h"⟩], true⟩ : Db) "aid" "t1").1.table .audit_log ++ extra
      ∧ (runRestore (exportBackup (⟨[], [], [[("id", JVal.str "b1"), ("category", JVal.str "general"), ("default_amount", JVal.num 50)]], [], [], [], [], [], [], [], [], [[("id", JVal.str "a1"), ("action", JVal.str "restore_test")]], [⟨"u1", "admin", "h"⟩], true⟩ : Db) "aid" "t1").1
          (JVal.obj [("version", JVal.num 1), ("exported_at", JVal.str "t1"),
            ("tables", JVal.obj (EXPORT_TBLS.map (fun t2 => (t2.name,
              JVal.arr (((⟨[], [], [[("id", JVal.str "b1"), ("category", JVal.str "general"), ("default_amount", JVal.num 50)]], [], [], [], [], [], [], [], [], [[("id", JVal.str "a1"), ("action", JVal.str "restore_test")]], [⟨"u1", "admin", "h"⟩], true⟩ : Db).table t2).map JVal.obj))))),
            ("password", JVal.str "pw")])
          "u1" (fun _ _ => true) "aid2" "t2").2 = RestoreResp.success n4 [] :=
  claim_C4 (⟨[], [], [[("id", JVal.str "b1"), ("category", JVal.str "general"), ("default_amount", JVal.num 50)]], [], [], [], [], [], [], [], [], [[("id", JVal.str "a1"), ("action", JVal.str "restore_test")]], [⟨"u1", "admin", "h"⟩], true⟩ : Db) "aid" "t1" "pw" "u1" "aid2" "t2" (fun _ _ => true)
    ⟨"u1", "admin", "h"⟩ (by decide) rfl (by decide)
    (by intro t ; cases t <;> decide)

end GiftScheduler
